import Mathlib

/-!
Verification development for the PQ 3.0 protocol core of py-postgresql
(`postgresql/protocol/xact3.py` and `postgresql/protocol/client3.py`).

The message catalog module `element3.py` is not part of the sources being
verified; wire payloads are therefore modelled in already-decoded form
(`Payload`), and the element parsers become projections of that data.
Where a definition depends on material that exists only in the spec
(authentication request codes, the driver glue that mounts the `Closing`
sentinel), its doc comment says `Modelled from the spec:`.

Group objects are identified by a numeric id (`MsgGroup.gid`), standing in
for CPython object identity (`messages is self.last[0]`, `id(messages)`).
-/

/-- One-byte message tags of the PQ 3.0 protocol used by `xact3.py`
(commands and backend replies). -/
inductive MType where
  | Query | Function | Parse | Bind | Describe | Close | Execute
  | Synchronize | Flush
  | TupleDescriptor | Null | Complete | CopyToBegin | CopyFromBegin
  | Ready | CopyData | CopyDone | CopyFail | Tuple | Suspension
  | ParseComplete | BindComplete | AttributeTypes | NoData | CloseComplete
  | FunctionResult | Error | Notice | Notify | ShowOption
  | Authentication | KillInformation | Disconnect
  deriving DecidableEq, Repr, Fintype

/-- A backend `Error`/`Notice` body, pre-decoded.  `element3.py` is not under
`src/`; per the spec the body is a map of fields including `severity`
(a byte string) and the five-character SQLSTATE `code`. -/
structure ServerErr where
  severity : List Nat
  code : String
  message : String
  deriving DecidableEq, Repr

/-- A `ClientError` synthesized by the core (code, message, severity, hint). -/
structure ClientErr where
  code : String
  message : String
  severity : String
  hint : String
  deriving DecidableEq, Repr

/-- The `error_message` attribute: either a parsed backend Error or a
synthesized ClientError. -/
inductive EMsg where
  | server (e : ServerErr)
  | client (e : ClientErr)
  deriving DecidableEq, Repr

/-- Wire payloads in already-decoded form (the element3 catalog is external
to the verified sources; parsers become projections). -/
inductive Payload where
  | raw (data : List Nat)
  | err (e : ServerErr)
  | ready (xactState : Nat)
  | auth (request : Nat) (salt : List Nat)
  | kill (pid : Nat) (key : Nat)
  | blank
  deriving DecidableEq, Repr

/-- A wire message as delivered by the buffer: `(type byte, payload)`,
mirroring the tuples `x = (x[0], x[1])` of `xact3.py`. -/
abbrev WireMsg := MType × Payload

/-- A group of wire messages handed to `put` in one call, together with its
object identity (`id(messages)`). -/
structure MsgGroup where
  gid : Nat
  msgs : List WireMsg
  deriving DecidableEq, Repr

/-- A parsed message as stored in `processed`/`completed`: either the result
of an `element3` parse (an object whose `.type` is the tag) or the raw
payload bytes produced by `return_arg` for CopyData. -/
inductive PMsg where
  | obj (t : MType) (p : Payload)
  | raw (p : Payload)
  deriving DecidableEq, Repr

/-- ASCII uppercasing of one byte, as done by `bytes.upper()`. -/
def byteUpper (c : Nat) : Nat := if 97 ≤ c ∧ c ≤ 122 then c - 32 else c

/-- The bytes of `b"FATAL"`. -/
def fatalBytes : List Nat := [70, 65, 84, 65, 76]

/-- The bytes of `b"PANIC"`. -/
def panicBytes : List Nat := [80, 65, 78, 73, 67]

/-- `em["severity"].upper() in (b"FATAL", b"PANIC")` (xact3.py line 481). -/
def severityFatal (sev : List Nat) : Bool :=
  sev.map byteUpper == fatalBytes || sev.map byteUpper == panicBytes

/-- `element.Error.parse` on a pre-decoded payload. -/
def errOf : Payload → ServerErr
  | .err e => e
  | _ => { severity := [], code := "", message := "" }

/-- The transaction state byte carried by a parsed `Ready` message
(`r.xact_state`). -/
def xactStateOf : Payload → Option Nat
  | .ready s => some s
  | _ => none

/-- Membership in `AsynchronousMap` (Notice, Notify, ShowOption). -/
def isAsync (t : MType) : Bool :=
  t == .Notice || t == .Notify || t == .ShowOption

/-- One step dictionary of the hook table: message type to
(parser-is-return_arg, next step or `None`). -/
abbrev StepMap := List (MType × (Bool × Option Nat))

/-- `hook[Query]` step 0 (Start). -/
def queryStep0 : StepMap :=
  [ (.TupleDescriptor, (false, some 3)),
    (.Null, (false, some 0)),
    (.Complete, (false, some 0)),
    (.CopyToBegin, (false, some 2)),
    (.CopyFromBegin, (false, some 1)),
    (.Ready, (false, none)) ]

/-- `hook[Query]` step 1 (Complete). -/
def queryStep1 : StepMap := [ (.Complete, (false, some 0)) ]

/-- `hook[Query]` step 2 (Copy Data). -/
def queryStep2 : StepMap :=
  [ (.CopyData, (true, some 2)), (.CopyDone, (false, some 1)) ]

/-- `hook[Query]` step 3 (Row Data). -/
def queryStep3 : StepMap :=
  [ (.Tuple, (false, some 3)), (.Complete, (false, some 0)),
    (.Ready, (false, none)) ]

/-- `hook[Function]` steps. -/
def functionStep0 : StepMap := [ (.FunctionResult, (false, some 1)) ]

/-- `hook[Function]` step 1. -/
def functionStep1 : StepMap := [ (.Ready, (false, none)) ]

/-- `hook[Parse]` step 0. -/
def parseStep0 : StepMap := [ (.ParseComplete, (false, none)) ]

/-- `hook[Bind]` step 0. -/
def bindStep0 : StepMap := [ (.BindComplete, (false, none)) ]

/-- `hook[Describe]` step 0. -/
def describeStep0 : StepMap :=
  [ (.AttributeTypes, (false, some 1)), (.TupleDescriptor, (false, none)) ]

/-- `hook[Describe]` step 1. -/
def describeStep1 : StepMap :=
  [ (.NoData, (false, none)), (.TupleDescriptor, (false, none)) ]

/-- `hook[Close]` step 0. -/
def closeStep0 : StepMap := [ (.CloseComplete, (false, none)) ]

/-- `hook[Execute]` step 0 (Start). -/
def executeStep0 : StepMap :=
  [ (.Tuple, (false, some 1)),
    (.CopyToBegin, (false, some 2)),
    (.CopyFromBegin, (false, some 3)),
    (.Null, (false, none)),
    (.Complete, (false, none)) ]

/-- `hook[Execute]` step 1 (Row Data). -/
def executeStep1 : StepMap :=
  [ (.Tuple, (false, some 1)), (.Suspension, (false, none)),
    (.Complete, (false, none)) ]

/-- `hook[Execute]` step 2 (Copy Data). -/
def executeStep2 : StepMap :=
  [ (.CopyData, (true, some 2)), (.CopyDone, (false, some 3)) ]

/-- `hook[Execute]` step 3 (Complete). -/
def executeStep3 : StepMap := [ (.Complete, (false, none)) ]

/-- `hook[Synchronize]` step 0. -/
def syncStep0 : StepMap := [ (.Ready, (false, none)) ]

/-- Value of the `hook` dictionary at one key: a tuple of step dictionaries,
`None` (for Flush), or a missing key. -/
inductive HookVal where
  | steps (l : List StepMap)
  | flushNone
  | absent
  deriving DecidableEq, Repr

/-- The `Instruction.hook` dispatch table (xact3.py lines 290-386). -/
def hook : MType → HookVal
  | .Query => .steps [queryStep0, queryStep1, queryStep2, queryStep3]
  | .Function => .steps [functionStep0, functionStep1]
  | .Parse => .steps [parseStep0]
  | .Bind => .steps [bindStep0]
  | .Describe => .steps [describeStep0, describeStep1]
  | .Close => .steps [closeStep0]
  | .Execute => .steps [executeStep0, executeStep1, executeStep2, executeStep3]
  | .Synchronize => .steps [syncStep0]
  | .Flush => .flushNone
  | _ => .absent

/-- The `state` attribute of an `Instruction`: `(direction, continuation)`
pairs, or `Complete`. -/
inductive XState where
  | sendingStd    -- (Sending, standard_sent)
  | sendingStdin  -- (Sending, sent_from_stdin)
  | recvStd       -- (Receiving, standard_put)
  | recvCopy      -- (Receiving, put_copydata)
  | recvTuple     -- (Receiving, put_tupledata)
  | complete
  deriving DecidableEq, Repr

/-- The `messages` attribute: outbound message sequences, distinguished by
how they were constructed (standing in for object identity of the
`CopyFailSequence`/`CopyDoneSequence` tuples). -/
inductive OutMsgs where
  | empty
  | cmds (l : List MType)
  | copyFailSeq (rest : List MType)
  | copyDoneSeq (rest : List MType)
  | userData (chunks : List (List Nat))
  deriving DecidableEq, Repr

/-- The message types written on the wire for one `messages` value
(`CopyFailSequence = (CopyFailMessage,) + commands[offset+1:]` etc.). -/
def OutMsgs.wire : OutMsgs → List MType
  | .empty => []
  | .cmds l => l
  | .copyFailSeq rest => .CopyFail :: rest
  | .copyDoneSeq rest => .CopyDone :: rest
  | .userData chunks => chunks.map (fun _ => .CopyData)

/-- The `Instruction` transaction (xact3.py lines 263-678).  Commands are
kept as their message types; `last` is
`(last group id, pre-group cursor, post-group cursor)`; `asyncsRec` is the
`_asyncs` duplicate-suppression list; `hookLog` records every message ever
forwarded to the user-supplied `asynchook`, in order. -/
structure Instruction where
  commands : List MType
  completed : List (Nat × List PMsg)
  last : Option Nat × (Nat × Nat) × (Nat × Nat)
  messages : OutMsgs
  state : XState
  fatal : Option Bool
  error_message : Option EMsg
  last_ready : Option Nat
  asyncsRec : List WireMsg
  hookLog : List PMsg
  copySeqRest : Option (List MType)
  deriving DecidableEq, Repr

/-- `Instruction.__init__` (xact3.py lines 394-423). -/
def Instruction.init (commands : List MType) : Instruction :=
  { commands := commands, completed := [],
    last := (none, (0, 0), (0, 0)),
    messages := .cmds commands, state := .sendingStd,
    fatal := none, error_message := none, last_ready := none,
    asyncsRec := [], hookLog := [], copySeqRest := none }

/-- Mutable state of the `standard_put` processing loop. -/
structure LoopSt where
  offset : Nat
  step : Nat
  processed : List PMsg
  count : Nat
  asyncsRec : List WireMsg
  hookLog : List PMsg
  fatal : Option Bool
  error_message : Option EMsg
  last_ready : Option Nat
  deriving DecidableEq, Repr

/-- Structural worker for `findSyncFrom`; the fuel argument is
`commands.length - off`. -/
def findSyncAux (commands : List MType) : Nat → Nat → Option Nat
  | 0, _ => none
  | fuel + 1, off =>
    if h : off < commands.length then
      if commands[off] = .Synchronize then some off
      else findSyncAux commands fuel (off + 1)
    else none

/-- Scan `commands[off:]` for the next `SynchronizeMessage`
(xact3.py lines 494-495; all Synchronize commands constructed by the
sources under `src/` are the `element3` singleton). -/
def findSyncFrom (commands : List MType) (off : Nat) : Option Nat :=
  findSyncAux commands (commands.length - off) off

/-- Result of advancing past a completed command (xact3.py lines 548-565). -/
inductive AdvRes where
  | complete (o : Nat)
  | more (o : Nat)
  | stuck
  deriving DecidableEq, Repr

/-- Structural worker for `advanceCmd`; the fuel argument is
`commands.length - off`. -/
def advanceAux (commands : List MType) : Nat → Nat → AdvRes
  | 0, _ => .stuck
  | fuel + 1, off =>
    if off + 1 = commands.length then .complete (off + 1)
    else if h : off + 1 < commands.length then
      match hook commands[off + 1] with
      | .flushNone => advanceAux commands fuel (off + 1)
      | .absent => .stuck
      | .steps _ => .more (off + 1)
    else .stuck

/-- The inner `while paths is None` loop that increments the command offset
past Flush commands; `stuck` models the exceptions Python would raise on
out-of-table lookups. -/
def advanceCmd (commands : List MType) (off : Nat) : AdvRes :=
  advanceAux commands (commands.length - off) off

/-- The asynchronous-message block of `standard_put`
(xact3.py lines 510-520): invoke the hook unless the identical tuple is
already recorded in `_asyncs`. -/
def recordAsync (x : WireMsg) (st : LoopSt) : LoopSt :=
  if x ∈ st.asyncsRec then st
  else { st with hookLog := st.hookLog ++ [PMsg.obj x.1 x.2],
                 asyncsRec := st.asyncsRec ++ [x] }

/-- The printed name of a message type (used in synthesized error texts in
place of the Python `repr` of the type byte). -/
def mtypeName : MType → String
  | .Query => "Query"
  | .Function => "Function"
  | .Parse => "Parse"
  | .Bind => "Bind"
  | .Describe => "Describe"
  | .Close => "Close"
  | .Execute => "Execute"
  | .Synchronize => "Synchronize"
  | .Flush => "Flush"
  | .TupleDescriptor => "TupleDescriptor"
  | .Null => "Null"
  | .Complete => "Complete"
  | .CopyToBegin => "CopyToBegin"
  | .CopyFromBegin => "CopyFromBegin"
  | .Ready => "Ready"
  | .CopyData => "CopyData"
  | .CopyDone => "CopyDone"
  | .CopyFail => "CopyFail"
  | .Tuple => "Tuple"
  | .Suspension => "Suspension"
  | .ParseComplete => "ParseComplete"
  | .BindComplete => "BindComplete"
  | .AttributeTypes => "AttributeTypes"
  | .NoData => "NoData"
  | .CloseComplete => "CloseComplete"
  | .FunctionResult => "FunctionResult"
  | .Error => "Error"
  | .Notice => "Notice"
  | .Notify => "Notify"
  | .ShowOption => "ShowOption"
  | .Authentication => "Authentication"
  | .KillInformation => "KillInformation"
  | .Disconnect => "Disconnect"

/-- The ClientError raised for a protocol violation
(xact3.py lines 524-531). -/
def protocolViolation (received : MType) : ClientErr :=
  { code := "08P01",
    message := "expected message of the types acceptable in the current " ++
      "step, but received " ++ mtypeName received ++ " instead",
    severity := "FATAL", hint := "" }

/-- Outcome of processing one message of the group inside the
`standard_put` loop. -/
inductive StepOut where
  | cont (st : LoopSt)   -- continue with the next message
  | halt (st : LoopSt)   -- early return: state becomes Complete
  | done (st : LoopSt)   -- break: fall through to the post-loop code
  | stuck
  deriving DecidableEq, Repr

/-- One iteration of the `for x in messages` loop of `standard_put`
(xact3.py lines 471-565). -/
def putStep (commands : List MType) (x : WireMsg) (st : LoopSt) : StepOut :=
  match commands[st.offset]? with
  | none => .stuck
  | some cmd =>
    match hook cmd with
    | .flushNone => .stuck
    | .absent => .stuck
    | .steps steps =>
      match steps[st.step]? with
      | none => .stuck
      | some sm =>
        let st1 := { st with count := st.count + 1 }
        match sm.lookup x.1 with
        | some (rawFlag, nextStep) =>
          let r := if rawFlag then PMsg.raw x.2 else PMsg.obj x.1 x.2
          let st2 := { st1 with processed := st1.processed ++ [r] }
          match nextStep with
          | some ns => .cont { st2 with step := ns }
          | none =>
            let st3 := { st2 with
              step := 0,
              last_ready := (match r with
                | .obj .Ready p => xactStateOf p
                | _ => st2.last_ready) }
            match advanceCmd commands st3.offset with
            | .complete o => .done { st3 with offset := o }
            | .more o => .cont { st3 with offset := o }
            | .stuck => .stuck
        | none =>
          if x.1 = .Error then
            let em := errOf x.2
            let ftl := severityFatal em.severity
            let st2 := { st1 with error_message := some (.server em),
                                  fatal := some ftl }
            if ftl then .halt st2
            else if cmd = .Function ∨ cmd = .Query then
              .cont { st2 with step := 0 }
            else
              match findSyncFrom commands st2.offset with
              | some j => .cont { st2 with offset := j, step := 0 }
              | none => .halt st2
          else if isAsync x.1 then
            .cont (recordAsync x st1)
          else
            .halt { st1 with
              error_message := some (.client (protocolViolation x.1)),
              fatal := some true }

/-- Result of the whole `standard_put` loop. -/
inductive LoopRes where
  | early (st : LoopSt)  -- returned from inside the loop
  | fell (st : LoopSt)   -- loop finished or broke; post-loop code runs
  | stuck
  deriving DecidableEq, Repr

/-- The `for x in messages` loop of `standard_put`. -/
def putLoop (commands : List MType) : List WireMsg → LoopSt → LoopRes
  | [], st => .fell st
  | x :: rest, st =>
    match putStep commands x st with
    | .cont st1 => putLoop commands rest st1
    | .halt st1 => .early st1
    | .done st1 => .fell st1
    | .stuck => .stuck

/-- The cursor `standard_put` starts from: the pre-group cursor `last[1]`
when the same group object is re-presented, the post-group cursor `last[2]`
otherwise (xact3.py lines 459-465). -/
def startCursor (i : Instruction) (gid : Nat) : Nat × Nat :=
  if i.last.1 = some gid then i.last.2.1 else i.last.2.2

/-- The post-loop code of `standard_put` (xact3.py lines 567-595):
record `completed` (keyed on group identity), store the new `last`
bookkeeping, and pick the next state. -/
def finishFell (i : Instruction) (gid : Nat) (st : LoopSt) :
    Option (Instruction × Nat) :=
  let completed1 :=
    match i.completed.getLast? with
    | none => i.completed ++ [(gid, st.processed)]
    | some e =>
      if e.1 ≠ gid then i.completed ++ [(gid, st.processed)] else i.completed
  let base := { i with
    completed := completed1,
    last := (some gid, i.last.2.2, (st.offset, st.step)),
    fatal := st.fatal, error_message := st.error_message,
    last_ready := st.last_ready, asyncsRec := st.asyncsRec,
    hookLog := st.hookLog }
  if st.offset = i.commands.length then
    some ({ base with state := .complete }, st.count)
  else
    match i.commands[st.offset]? with
    | none => none
    | some c =>
      if (c = .Execute ∨ c = .Query) ∧ st.processed ≠ [] then
        match st.processed.getLast? with
        | some (.raw _) => some ({ base with state := .recvCopy }, st.count)
        | some (.obj .CopyToBegin _) =>
          some ({ base with state := .recvCopy }, st.count)
        | some (.obj .Tuple _) =>
          some ({ base with state := .recvTuple }, st.count)
        | some (.obj .CopyFromBegin _) =>
          some ({ base with
                  state := .sendingStdin,
                  copySeqRest := some (i.commands.drop (st.offset + 1)) },
                st.count)
        | _ => some (base, st.count)
      else some (base, st.count)

/-- `Instruction.standard_put` (xact3.py lines 449-595).  `none` models an
exception escaping the method (IndexError/KeyError on out-of-table state,
as its docstring advertises). -/
def standard_put (i : Instruction) (g : MsgGroup) :
    Option (Instruction × Nat) :=
  let start := startCursor i g.gid
  let asyncs0 := if i.last.1 = some g.gid then i.asyncsRec else []
  match i.commands[start.1]? with
  | none => none
  | some cmd0 =>
    if hook cmd0 = HookVal.absent then none
    else
      match putLoop i.commands g.msgs
          { offset := start.1, step := start.2, processed := [], count := 0,
            asyncsRec := asyncs0, hookLog := i.hookLog, fatal := i.fatal,
            error_message := i.error_message, last_ready := i.last_ready } with
      | .stuck => none
      | .early st =>
        some ({ i with fatal := st.fatal, error_message := st.error_message,
                       last_ready := st.last_ready, asyncsRec := st.asyncsRec,
                       hookLog := st.hookLog, state := .complete }, st.count)
      | .fell st => finishFell i g.gid st

/-- `Instruction.put_copydata` (xact3.py lines 597-618): fast path for a
homogeneous group of CopyData messages; otherwise revert to
`standard_put` and replay the group. -/
def put_copydata (i : Instruction) (g : MsgGroup) :
    Option (Instruction × Nat) :=
  match g.msgs.getLast? with
  | none => none
  | some lastMsg =>
    if lastMsg.1 ≠ .CopyData then
      standard_put { i with state := .recvStd } g
    else
      let lines := (g.msgs.filter (fun x => x.1 = .CopyData)).map
        (fun x => PMsg.raw x.2)
      if lines.length ≠ g.msgs.length then
        standard_put { i with state := .recvStd } g
      else
        let completed1 :=
          match i.completed.getLast? with
          | none => i.completed ++ [(g.gid, lines)]
          | some e =>
            if e.1 ≠ g.gid then i.completed ++ [(g.gid, lines)]
            else i.completed
        some ({ i with completed := completed1,
                       last := (some g.gid, i.last.2.2, i.last.2.2) },
              g.msgs.length)

/-- `Instruction.put_tupledata` (xact3.py lines 620-641). -/
def put_tupledata (i : Instruction) (g : MsgGroup) :
    Option (Instruction × Nat) :=
  match g.msgs.getLast? with
  | none => none
  | some lastMsg =>
    if lastMsg.1 ≠ .Tuple then
      standard_put { i with state := .recvStd } g
    else
      let tuplemessages := (g.msgs.filter (fun x => x.1 = .Tuple)).map
        (fun x => PMsg.obj .Tuple x.2)
      if tuplemessages.length ≠ g.msgs.length then
        standard_put { i with state := .recvStd } g
      else
        let completed1 :=
          match i.completed.getLast? with
          | none => i.completed ++ [(g.gid, tuplemessages)]
          | some e =>
            if e.1 ≠ g.gid then i.completed ++ [(g.gid, tuplemessages)]
            else i.completed
        some ({ i with completed := completed1,
                       last := (some g.gid, i.last.2.2, i.last.2.2) },
              g.msgs.length)

/-- `Instruction.standard_sent` (xact3.py lines 643-652). -/
def standard_sent (i : Instruction) : Instruction :=
  { i with messages := .empty, state := .recvStd }

/-- `Instruction.sent_from_stdin` (xact3.py lines 654-678): if the sent
`messages` was the CopyDone or CopyFail sequence, finish out the COPY and
return to receiving; otherwise pre-initialize `messages` to the
CopyFail sequence. -/
def sent_from_stdin (i : Instruction) : Instruction :=
  match i.messages with
  | .copyDoneSeq _ => { i with messages := .empty, state := .recvStd }
  | .copyFailSeq _ => { i with messages := .empty, state := .recvStd }
  | _ => { i with messages := .copyFailSeq (i.copySeqRest.getD []) }

/-- Drive the Sending side of an instruction as `Connection.step` does:
while the state is a Sending state, record `messages` as written to the
wire and invoke the sending continuation.  Fuel-bounded. -/
def sendDrain : Nat → Instruction → List OutMsgs → Instruction × List OutMsgs
  | 0, i, acc => (i, acc)
  | fuel + 1, i, acc =>
    match i.state with
    | .sendingStd => sendDrain fuel (standard_sent i) (acc ++ [i.messages])
    | .sendingStdin => sendDrain fuel (sent_from_stdin i) (acc ++ [i.messages])
    | _ => (i, acc)

/-- Modelled from the spec: `element3.py` is not under `src/`; these are the
PostgreSQL authentication request codes referred to symbolically by the
spec (OK, Cleartext, Crypt, MD5). -/
def AuthRequest_OK : Nat := 0

/-- Modelled from the spec: the Cleartext password request code. -/
def AuthRequest_Cleartext : Nat := 3

/-- Modelled from the spec: the crypt password request code. -/
def AuthRequest_Crypt : Nat := 4

/-- Modelled from the spec: the MD5 password request code. -/
def AuthRequest_MD5 : Nat := 5

/-- Modelled from the spec: `element3.AuthNameMap` lookup with the
`<unknown>` default used by `unsupported_auth_request`. -/
def authName (req : Nat) : String :=
  if req = 0 then "OK"
  else if req = 2 then "KerberosV5"
  else if req = 3 then "Cleartext"
  else if req = 4 then "Crypt"
  else if req = 5 then "MD5"
  else "<unknown>"

/-- The ASCII bytes of `b"md5"`. -/
def md5Marker : List Nat := [109, 100, 53]

/-- The terminal ClientError produced by
`Negotiation.unsupported_auth_request` (xact3.py lines 161-172). -/
def unsupportedAuthErr (req : Nat) : ClientErr :=
  { code := "--AUT",
    message := "unsupported authentication request " ++ authName req ++
      "(" ++ toString req ++ ")",
    severity := "",
    hint := "postgresql.protocol only supports: MD5, crypt, plaintext, " ++
      "and trust." }

/-- Outbound message sets yielded by the negotiation generator. -/
inductive NegOut where
  | startup
  | password (pw : List Nat)
  deriving DecidableEq, Repr

/-- Suspension points of the `Negotiation.state_machine` generator. -/
inductive NegMachine where
  | awaitAuth
  | awaitAuthOk
  | awaitKill
  | awaitReady
  | finished
  deriving DecidableEq, Repr

/-- The `state` attribute of a `Negotiation`. -/
inductive NegState where
  | sending
  | receiving
  | complete
  deriving DecidableEq, Repr

/-- Result of `machine.send(x)`: a yielded value (`None` or an outbound
message sequence), exhaustion (StopIteration), or a parse exception on an
ill-shaped payload. -/
inductive SendRes where
  | yielded (out : Option NegOut)
  | stopped
  | stuck
  deriving DecidableEq, Repr

/-- The `Negotiation` transaction (xact3.py lines 76-261).  The startup
message is represented by its `user` parameter (the only field the machine
reads); `received` stores group identities (`received = [()]` initially,
modelled as `[none]`). -/
structure Negotiation where
  user : List Nat
  password : List Nat
  received : List (Option Nat)
  asyncs : List PMsg
  authtype : Option (Nat × List Nat)
  authok : Option (Nat × List Nat)
  killinfo : Option (Nat × Nat)
  last_ready : Option Nat
  fatal : Option Bool
  error_message : Option EMsg
  machine : NegMachine
  messages : Option NegOut
  state : NegState
  deriving DecidableEq, Repr

/-- `Negotiation.__init__` (xact3.py lines 90-104): prime the generator
(which yields the startup message) and enter the Sending state. -/
def Negotiation.init (user password : List Nat) : Negotiation :=
  { user := user, password := password, received := [none], asyncs := [],
    authtype := none, authok := none, killinfo := none, last_ready := none,
    fatal := none, error_message := none, machine := .awaitAuth,
    messages := some .startup, state := .sending }

/-- `Negotiation.sent` (xact3.py lines 114-122). -/
def Negotiation.sent (n : Negotiation) : Negotiation :=
  { n with messages := none, state := .receiving }

/-- A protocol-violation ClientError of the negotiation (code `08P01`). -/
def negProtoErr (expected : String) : ClientErr :=
  { code := "08P01",
    message := "received message of an unexpected type, but expected " ++
      expected, severity := "", hint := "" }

/-- One resumption of the `state_machine` generator
(xact3.py lines 174-261).  `md5h` models
`lambda b: md5(b).hexdigest().encode("ascii")` and `cryptF` models
`resolved.crypt.crypt`; both are external to the verified sources. -/
def machineSend (md5h : List Nat → List Nat)
    (cryptF : List Nat → List Nat → List Nat)
    (n : Negotiation) (x : WireMsg) : Negotiation × SendRes :=
  match n.machine with
  | .awaitAuth =>
    if x.1 ≠ .Authentication then
      ({ n with
         fatal := some true,
         error_message := some (.client (negProtoErr "Authentication")),
         machine := .finished }, .stopped)
    else
      match x.2 with
      | .auth req salt =>
        let n1 := { n with authtype := some (req, salt) }
        if req = AuthRequest_OK then
          ({ n1 with authok := some (req, salt), machine := .awaitKill },
           .yielded none)
        else if req = AuthRequest_Cleartext then
          ({ n1 with machine := .awaitAuthOk },
           .yielded (some (.password n.password)))
        else if req = AuthRequest_Crypt then
          ({ n1 with machine := .awaitAuthOk },
           .yielded (some (.password (cryptF n.password salt))))
        else if req = AuthRequest_MD5 then
          ({ n1 with machine := .awaitAuthOk },
           .yielded (some (.password
             (md5Marker ++ md5h (md5h (n.password ++ n.user) ++ salt)))))
        else
          ({ n1 with
             fatal := some true,
             error_message := some (.client (unsupportedAuthErr req)),
             state := .complete, machine := .finished }, .stopped)
      | _ => (n, .stuck)
  | .awaitAuthOk =>
    match x.2 with
    | .auth req salt =>
      let n1 := { n with authok := some (req, salt) }
      if req ≠ AuthRequest_OK then
        ({ n1 with
           fatal := some true,
           error_message := some (.client (negProtoErr
             "an OK authentication message")),
           machine := .finished }, .stopped)
      else ({ n1 with machine := .awaitKill }, .yielded none)
    | _ => (n, .stuck)
  | .awaitKill =>
    if x.1 ≠ .KillInformation then
      ({ n with
         fatal := some true,
         error_message := some (.client (negProtoErr "KillInformation")),
         machine := .finished }, .stopped)
    else
      match x.2 with
      | .kill pid key =>
        ({ n with killinfo := some (pid, key), machine := .awaitReady },
         .yielded none)
      | _ => (n, .stuck)
  | .awaitReady =>
    if x.1 ≠ .Ready then
      ({ n with
         fatal := some true,
         error_message := some (.client (negProtoErr "Ready")),
         machine := .finished }, .stopped)
    else
      match x.2 with
      | .ready s =>
        ({ n with last_ready := some s, machine := .finished }, .stopped)
      | _ => (n, .stuck)
  | .finished => (n, .stopped)

/-- Result of the `for x in messages` loop of `Negotiation.put_messages`. -/
inductive NegLoopRes where
  | ret (n : Negotiation) (count : Nat)
  | fell (n : Negotiation) (count : Nat) (out : Option NegOut)
  | stuck
  deriving Repr

/-- The message loop of `Negotiation.put_messages`
(xact3.py lines 133-154). -/
def negLoop (md5h : List Nat → List Nat)
    (cryptF : List Nat → List Nat → List Nat) :
    List WireMsg → Negotiation → Nat → Option NegOut → NegLoopRes
  | [], n, cnt, out => .fell n cnt out
  | x :: rest, n, cnt, out =>
    if x.1 = .Error then
      if n.fatal = none then
        .ret { n with error_message := some (.server (errOf x.2)),
                      fatal := some true, state := .complete } (cnt + 1)
      else negLoop md5h cryptF rest n (cnt + 1) out
    else if isAsync x.1 then
      negLoop md5h cryptF rest
        { n with asyncs := n.asyncs ++ [PMsg.obj x.1 x.2] } (cnt + 1) out
    else
      match machineSend md5h cryptF n x with
      | (n1, .stopped) => .ret { n1 with state := .complete } (cnt + 1)
      | (_, .stuck) => .stuck
      | (n1, .yielded (some o)) => .fell n1 (cnt + 1) (some o)
      | (n1, .yielded none) => negLoop md5h cryptF rest n1 (cnt + 1) none

/-- `Negotiation.put_messages` (xact3.py lines 124-159).  The
`Except.error` value models the `RuntimeError` raised when the same group
object is re-presented, and the exception escaping on ill-shaped wire
data. -/
def put_messages (md5h : List Nat → List Nat)
    (cryptF : List Nat → List Nat → List Nat)
    (n : Negotiation) (g : MsgGroup) : Except String (Negotiation × Nat) :=
  if n.received.getLast? = some (some g.gid) then
    .error "negotiation was interrupted"
  else
    let n0 := { n with received := n.received ++ [some g.gid] }
    match negLoop md5h cryptF g.msgs n0 0 none with
    | .stuck => .error "wire-data caused exception in protocol transaction"
    | .ret n1 cnt => .ok (n1, cnt)
    | .fell n1 cnt (some o) =>
      .ok ({ n1 with messages := some o, state := .sending }, cnt)
    | .fell n1 cnt none => .ok (n1, cnt)

/-- The `state` of the `Closing` sentinel transaction. -/
inductive CState where
  | sendingDisc
  | complete
  deriving DecidableEq, Repr

/-- The `Closing` sentinel transaction (xact3.py lines 48-74). -/
structure ClosingXact where
  messages : List MType
  state : CState
  fatal : Option Bool
  deriving DecidableEq, Repr

/-- The class-level `error_message` of `Closing` (xact3.py lines 52-59):
a ClientError with SQLSTATE `08003`. -/
def Closing.error_message : ClientErr :=
  { code := "08003", message := "operation on closed connection",
    severity := "FATAL",
    hint := "A new connection needs to be created in order to query " ++
      "the server." }

/-- `Closing.__init__` (xact3.py lines 72-74). -/
def Closing.start : ClosingXact :=
  { messages := [.Disconnect], state := .sendingDisc, fatal := none }

/-- `Closing.sent` (xact3.py lines 64-70). -/
def Closing.sentX (_c : ClosingXact) : ClosingXact :=
  { messages := [], state := .complete, fatal := some true }

/-- A transaction mounted on a `Connection`: an `Instruction` or the
`Closing` sentinel. -/
inductive Mounted where
  | instr (i : Instruction)
  | closingX (c : ClosingXact)
  deriving DecidableEq, Repr

/-- Whether the mounted transaction's `state` is `Complete`. -/
def Mounted.isDone : Mounted → Bool
  | .instr i => i.state == .complete
  | .closingX c => c.state == .complete

/-- The mounted transaction's `fatal` attribute. -/
def Mounted.fatalFlag : Mounted → Option Bool
  | .instr i => i.fatal
  | .closingX c => c.fatal

/-- The `Connection` fields relevant to mounting transactions
(client3.py).  `socketCloseCount` counts calls to `socket.close()`. -/
structure Conn where
  xact : Option Mounted
  socketCloseCount : Nat
  garbageStatements : List (List Nat)
  garbageCursors : List (List Nat)
  deriving DecidableEq, Repr

/-- `Connection.complete` (client3.py lines 423-467) restricted to the case
the mounted transaction is already `Complete` (its while loop is then
skipped and only lines 464-467 run; a fatal transaction is retained in the
slot).  Driving a non-complete transaction performs wire I/O, which is
outside this model (`none`). -/
def connComplete (c : Conn) : Option Conn :=
  match c.xact with
  | none => none
  | some m =>
    if m.isDone then
      some (if m.fatalFlag ≠ some true then { c with xact := none } else c)
    else none

/-- `Connection.push` (client3.py lines 365-384).  Mounting performs one
`step()`, and a pending garbage flush runs `take_out_trash()`; both do wire
I/O, so the model stops at the mounting decision itself (the mounted slot
after `push`). -/
def connPush (c : Conn) (x : Instruction) : Option Conn :=
  if x.state = .complete then some c
  else
    match c.xact with
    | none =>
      if c.garbageStatements = [] ∧ c.garbageCursors = [] then
        some { c with xact := some (.instr x) }
      else none
    | some _ =>
      match connComplete c with
      | none => none
      | some c1 =>
        match c1.xact with
        | some _ => some c1
        | none =>
          if c1.garbageStatements = [] ∧ c1.garbageCursors = [] then
            some { c1 with xact := some (.instr x) }
          else none

/-- Modelled from the spec: the driver layer above `protocol/client3.py` is
not under `src/`.  Per the spec (section 7), after a fatal error the
connection's socket is closed exactly once (client3.py closes it at the
point of failure, lines 225-254 and 285-298) and the connection is left
holding a permanent `Closing` sentinel that has been driven to completion
(its `sent` continuation ran when the disconnect message was flushed). -/
def afterFatalError (c : Conn) : Conn :=
  { c with socketCloseCount := c.socketCloseCount + 1,
           xact := some (.closingX (Closing.sentX Closing.start)) }

/-- No step dictionary of the hook table accepts an asynchronous message
type (checked over the whole finite table). -/
def stepNoAsync (sm : StepMap) : Bool :=
  (sm.lookup .Notice).isNone && (sm.lookup .Notify).isNone &&
    (sm.lookup .ShowOption).isNone

/-- Decidable form of "the hook table has no asynchronous entries". -/
def hookNoAsyncB (c : MType) : Bool :=
  match hook c with
  | .steps l => l.all stepNoAsync
  | _ => true

/-- The loop-control fields of a `LoopSt`: cursor, processed output and
count.  The remaining fields (asyncs bookkeeping, hook log, error state)
never influence the control flow of `putStep`. -/
def LoopSt.cur4 (st : LoopSt) : Nat × Nat × List PMsg × Nat :=
  (st.offset, st.step, st.processed, st.count)

/-- Outcome tag and control fields of one `putStep` outcome. -/
def StepOut.tagCur : StepOut → Option (Nat × (Nat × Nat × List PMsg × Nat))
  | .cont s => some (0, s.cur4)
  | .halt s => some (1, s.cur4)
  | .done s => some (2, s.cur4)
  | .stuck => none

/-- Outcome tag and control fields of a whole `putLoop` run. -/
def LoopRes.tagCur : LoopRes → Option (Nat × (Nat × Nat × List PMsg × Nat))
  | .early s => some (0, s.cur4)
  | .fell s => some (1, s.cur4)
  | .stuck => none

/-- A parsed message that is not an asynchronous message (asyncs never
reach `processed`). -/
def nonAsyncP : PMsg → Bool
  | .obj t _ => !(isAsync t)
  | .raw _ => true

/-- The successor state carried by a non-stuck `putStep` outcome. -/
def StepOut.stOf : StepOut → Option LoopSt
  | .cont s => some s
  | .halt s => some s
  | .done s => some s
  | .stuck => none

theorem hookNoAsync_all : ∀ c, hookNoAsyncB c = true := by decide

theorem hookNoAsync_lookup {c : MType} {l : List StepMap} {sm : StepMap}
    (hc : hook c = .steps l) (hm : sm ∈ l) {t : MType}
    (ht : isAsync t = true) : sm.lookup t = none := by
  have h := hookNoAsync_all c
  rw [hookNoAsyncB, hc] at h
  rw [List.all_eq_true] at h
  have h2 := h sm hm
  rw [stepNoAsync, Bool.and_eq_true, Bool.and_eq_true] at h2
  obtain ⟨⟨hA, hB⟩, hC⟩ := h2
  rw [Option.isNone_iff_eq_none] at hA hB hC
  cases t <;>
    first
      | exact hA
      | exact hB
      | exact hC
      | exact absurd ht (by decide)

theorem isAsync_ne_error {t : MType} (h : isAsync t = true) : t ≠ .Error := by
  cases t <;> simp_all [isAsync]

theorem findSyncAux_spec (commands : List MType) :
    ∀ fuel off j, findSyncAux commands fuel off = some j →
      commands[j]? = some .Synchronize ∧ off ≤ j := by
  intro fuel
  induction fuel with
  | zero => intro off j h; simp [findSyncAux] at h
  | succ n ih =>
    intro off j h
    rw [findSyncAux] at h
    by_cases ho : off < commands.length
    · rw [dif_pos ho] at h
      by_cases hs : commands[off] = .Synchronize
      · rw [if_pos hs] at h
        cases h
        exact ⟨by rw [List.getElem?_eq_getElem ho, hs], le_refl _⟩
      · rw [if_neg hs] at h
        have := ih (off + 1) j h
        exact ⟨this.1, by omega⟩
    · rw [dif_neg ho] at h
      cases h

theorem findSyncFrom_spec (commands : List MType) :
    ∀ off j, findSyncFrom commands off = some j →
      commands[j]? = some .Synchronize ∧ off ≤ j := by
  intro off j h
  exact findSyncAux_spec commands _ off j h


theorem putStep_error_fatal {commands : List MType} {st : LoopSt} {cmd : MType}
    {steps : List StepMap} {sm : StepMap} {p : Payload}
    (hc : commands[st.offset]? = some cmd) (hh : hook cmd = .steps steps)
    (hs : steps[st.step]? = some sm) (hl : sm.lookup .Error = none)
    (hft : severityFatal (errOf p).severity = true) :
    putStep commands (.Error, p) st =
      .halt { st with
              count := st.count + 1,
              error_message := some (.server (errOf p)),
              fatal := some true } := by
  unfold putStep
  simp only [hc, hh, hs, hl, hft]
  rfl

theorem putStep_error_qf {commands : List MType} {st : LoopSt} {cmd : MType}
    {steps : List StepMap} {sm : StepMap} {p : Payload}
    (hc : commands[st.offset]? = some cmd) (hh : hook cmd = .steps steps)
    (hs : steps[st.step]? = some sm) (hl : sm.lookup .Error = none)
    (hft : severityFatal (errOf p).severity = false)
    (hqf : cmd = .Function ∨ cmd = .Query) :
    putStep commands (.Error, p) st =
      .cont { st with
              step := 0,
              count := st.count + 1,
              error_message := some (.server (errOf p)),
              fatal := some false } := by
  unfold putStep
  simp only [hc, hh, hs, hl, hft, if_pos hqf]
  rfl

theorem putStep_error_resync {commands : List MType} {st : LoopSt} {cmd : MType}
    {steps : List StepMap} {sm : StepMap} {p : Payload} {j : Nat}
    (hc : commands[st.offset]? = some cmd) (hh : hook cmd = .steps steps)
    (hs : steps[st.step]? = some sm) (hl : sm.lookup .Error = none)
    (hft : severityFatal (errOf p).severity = false)
    (hqf : ¬(cmd = .Function ∨ cmd = .Query))
    (hj : findSyncFrom commands st.offset = some j) :
    putStep commands (.Error, p) st =
      .cont { st with
              offset := j,
              step := 0,
              count := st.count + 1,
              error_message := some (.server (errOf p)),
              fatal := some false } := by
  unfold putStep
  simp only [hc, hh, hs, hl, hft, if_neg hqf, hj]
  simp

theorem putStep_error_nosync {commands : List MType} {st : LoopSt} {cmd : MType}
    {steps : List StepMap} {sm : StepMap} {p : Payload}
    (hc : commands[st.offset]? = some cmd) (hh : hook cmd = .steps steps)
    (hs : steps[st.step]? = some sm) (hl : sm.lookup .Error = none)
    (hft : severityFatal (errOf p).severity = false)
    (hqf : ¬(cmd = .Function ∨ cmd = .Query))
    (hj : findSyncFrom commands st.offset = none) :
    putStep commands (.Error, p) st =
      .halt { st with
              count := st.count + 1,
              error_message := some (.server (errOf p)),
              fatal := some false } := by
  unfold putStep
  simp only [hc, hh, hs, hl, hft, if_neg hqf, hj]
  simp

theorem putStep_async {commands : List MType} {st : LoopSt} {cmd : MType}
    {steps : List StepMap} {sm : StepMap} {x : WireMsg}
    (hc : commands[st.offset]? = some cmd) (hh : hook cmd = .steps steps)
    (hs : steps[st.step]? = some sm) (hl : sm.lookup x.1 = none)
    (ha : isAsync x.1 = true) :
    putStep commands x st =
      .cont (recordAsync x { st with count := st.count + 1 }) := by
  unfold putStep
  simp only [hc, hh, hs, hl, if_neg (isAsync_ne_error ha), ha]
  rfl

theorem putStep_violation {commands : List MType} {st : LoopSt} {cmd : MType}
    {steps : List StepMap} {sm : StepMap} {x : WireMsg}
    (hc : commands[st.offset]? = some cmd) (hh : hook cmd = .steps steps)
    (hs : steps[st.step]? = some sm) (hl : sm.lookup x.1 = none)
    (he : x.1 ≠ .Error) (ha : isAsync x.1 = false) :
    putStep commands x st =
      .halt { st with
              count := st.count + 1,
              error_message := some (.client (protocolViolation x.1)),
              fatal := some true } := by
  unfold putStep
  simp only [hc, hh, hs, hl, if_neg he, ha]
  rfl

theorem putLoop_cons_cont {commands : List MType} {x : WireMsg}
    {rest : List WireMsg} {st st1 : LoopSt}
    (h : putStep commands x st = .cont st1) :
    putLoop commands (x :: rest) st = putLoop commands rest st1 := by
  simp [putLoop, h]

theorem putLoop_cons_halt {commands : List MType} {x : WireMsg}
    {rest : List WireMsg} {st st1 : LoopSt}
    (h : putStep commands x st = .halt st1) :
    putLoop commands (x :: rest) st = .early st1 := by
  simp [putLoop, h]

theorem putLoop_cons_done {commands : List MType} {x : WireMsg}
    {rest : List WireMsg} {st st1 : LoopSt}
    (h : putStep commands x st = .done st1) :
    putLoop commands (x :: rest) st = .fell st1 := by
  simp [putLoop, h]

/-- Claim C10: `Negotiation.put_messages` is not re-entrant with the same
group: re-presenting the group object most recently delivered (the last
entry of `received`) raises `RuntimeError("negotiation was interrupted")`
instead of replaying it or recording an `error_message`. -/
theorem claim_c10 (md5h : List Nat → List Nat)
    (cryptF : List Nat → List Nat → List Nat)
    (n : Negotiation) (g : MsgGroup)
    (h : n.received.getLast? = some (some g.gid)) :
    put_messages md5h cryptF n g = .error "negotiation was interrupted" := by
  simp [put_messages, h]

theorem claim_c10_witness :
    put_messages (fun l => l) (fun a _ => a)
      { Negotiation.init [97] [98] with
        received := [none, some 7], messages := none, state := .receiving }
      ⟨7, [(.Authentication, .auth 0 [])]⟩ =
      .error "negotiation was interrupted" :=
  claim_c10 (fun l => l) (fun a _ => a) _ _ rfl

/-- Claim C8: an Authentication challenge whose request is not OK,
Cleartext, Crypt, or MD5 terminates the negotiation (state Complete,
fatal set) with a ClientError of code `--AUT` whose message contains the
numeric request value. -/
theorem claim_c8 (md5h : List Nat → List Nat)
    (cryptF : List Nat → List Nat → List Nat)
    (user password salt : List Nat) (req gid : Nat)
    (h0 : req ≠ AuthRequest_OK) (h1 : req ≠ AuthRequest_Cleartext)
    (h2 : req ≠ AuthRequest_Crypt) (h3 : req ≠ AuthRequest_MD5) :
    ∃ n1, put_messages md5h cryptF
        (Negotiation.sent (Negotiation.init user password))
        ⟨gid, [(.Authentication, .auth req salt)]⟩ = .ok (n1, 1) ∧
      n1.state = .complete ∧ n1.fatal = some true ∧
      n1.error_message = some (.client (unsupportedAuthErr req)) ∧
      (unsupportedAuthErr req).code = "--AUT" ∧
      ∃ a b, (unsupportedAuthErr req).message = a ++ toString req ++ b := by
  refine ⟨{ user := user, password := password,
            received := [none, some gid], asyncs := [],
            authtype := some (req, salt), authok := none, killinfo := none,
            last_ready := none, fatal := some true,
            error_message := some (.client (unsupportedAuthErr req)),
            machine := .finished, messages := none, state := .complete },
    ?_, rfl, rfl, rfl, rfl,
    ⟨"unsupported authentication request " ++ authName req ++ "(", ")", rfl⟩⟩
  unfold put_messages negLoop machineSend
  simp [h0, h1, h2, h3, Negotiation.init, Negotiation.sent, isAsync]

theorem claim_c8_witness :
    (2 ≠ AuthRequest_OK ∧ 2 ≠ AuthRequest_Cleartext ∧
     2 ≠ AuthRequest_Crypt ∧ 2 ≠ AuthRequest_MD5) ∧
    ∃ n1, put_messages (fun l => l) (fun a _ => a)
        (Negotiation.sent (Negotiation.init [97] [98]))
        ⟨42, [(.Authentication, .auth 2 [])]⟩ = .ok (n1, 1) ∧
      n1.state = .complete ∧ n1.fatal = some true ∧
      n1.error_message = some (.client (unsupportedAuthErr 2)) ∧
      (unsupportedAuthErr 2).code = "--AUT" ∧
      ∃ a b, (unsupportedAuthErr 2).message = a ++ toString 2 ++ b :=
  ⟨⟨by decide, by decide, by decide, by decide⟩,
   claim_c8 (fun l => l) (fun a _ => a) [97] [98] [] 2 42
     (by decide) (by decide) (by decide) (by decide)⟩

/-- Claim C7: on an MD5 Authentication challenge with a 4-byte salt the
negotiation replies with a Password whose body is the ASCII bytes `md5`
followed by `md5_hex(md5_hex(password ++ user) ++ salt)`, where `user`
comes from the startup message. -/
theorem claim_c7 (md5h : List Nat → List Nat)
    (cryptF : List Nat → List Nat → List Nat)
    (user password salt : List Nat) (gid : Nat)
    (_hsalt : salt.length = 4) :
    ∃ n1, put_messages md5h cryptF
        (Negotiation.sent (Negotiation.init user password))
        ⟨gid, [(.Authentication, .auth AuthRequest_MD5 salt)]⟩ =
        .ok (n1, 1) ∧
      n1.messages = some (.password
        (md5Marker ++ md5h (md5h (password ++ user) ++ salt))) ∧
      n1.state = .sending := by
  exact ⟨{ user := user, password := password,
           received := [none, some gid], asyncs := [],
           authtype := some (AuthRequest_MD5, salt), authok := none,
           killinfo := none, last_ready := none, fatal := none,
           error_message := none, machine := .awaitAuthOk,
           messages := some (.password
             (md5Marker ++ md5h (md5h (password ++ user) ++ salt))),
           state := .sending }, rfl, rfl, rfl⟩

theorem claim_c7_witness :
    (([1, 2, 3, 4] : List Nat).length = 4) ∧
    ∃ n1, put_messages (fun l => l) (fun a _ => a)
        (Negotiation.sent (Negotiation.init [97] [98]))
        ⟨41, [(.Authentication, .auth AuthRequest_MD5 [1, 2, 3, 4])]⟩ =
        .ok (n1, 1) ∧
      n1.messages = some (.password
        (md5Marker ++ (fun l : List Nat => l)
          ((fun l : List Nat => l) ([98] ++ [97]) ++ [1, 2, 3, 4]))) ∧
      n1.state = .sending :=
  ⟨by decide,
   claim_c7 (fun l => l) (fun a _ => a) [97] [98] [1, 2, 3, 4] 41 (by decide)⟩

/-- Claim C6: after a fatal error the connection's socket has been closed
exactly once and the connection permanently holds the completed, fatal
`Closing` sentinel whose `error_message` reports SQLSTATE `08003`; a
subsequent `push` of a fresh instruction leaves the connection unchanged
(the instruction is never mounted, the socket is not closed again). -/
theorem claim_c6 (c : Conn) (x : Instruction) (hx : x.state ≠ .complete) :
    (afterFatalError c).socketCloseCount = c.socketCloseCount + 1 ∧
    connPush (afterFatalError c) x = some (afterFatalError c) ∧
    (afterFatalError c).xact = some (.closingX
      { messages := [], state := .complete, fatal := some true }) ∧
    Closing.error_message.code = "08003" := by
  refine ⟨rfl, ?_, rfl, rfl⟩
  simp [connPush, hx, afterFatalError, connComplete, Closing.sentX,
    Closing.start, Mounted.isDone, Mounted.fatalFlag]

theorem claim_c6_witness :
    ((Instruction.init [MType.Parse]).state ≠ XState.complete) ∧
    ((afterFatalError ⟨none, 0, [], []⟩).socketCloseCount = 0 + 1 ∧
     connPush (afterFatalError ⟨none, 0, [], []⟩) (Instruction.init [.Parse]) =
       some (afterFatalError ⟨none, 0, [], []⟩) ∧
     (afterFatalError ⟨none, 0, [], []⟩).xact = some (.closingX
       { messages := [], state := .complete, fatal := some true }) ∧
     Closing.error_message.code = "08003") :=
  ⟨by decide, claim_c6 ⟨none, 0, [], []⟩ (Instruction.init [.Parse]) (by decide)⟩

/-- Claim C9 (as stated): in COPY FROM STDIN sending mode, the submitter
must set `messages` to a data chunk or to `CopyDoneSequence` before each
send; all three behaviors of `sent_from_stdin` hold, and in the concrete
COPY scenario a missing assignment makes the transaction send CopyFail
followed by the remaining commands, after which the instruction continues
processing normally (completing non-fatally). -/
theorem claim_c9 :
    (∀ (i : Instruction) (r : List MType), i.messages = .copyFailSeq r →
       sent_from_stdin i = { i with messages := .empty, state := .recvStd }) ∧
    (∀ (i : Instruction) (r : List MType), i.messages = .copyDoneSeq r →
       sent_from_stdin i = { i with messages := .empty, state := .recvStd }) ∧
    (∀ i : Instruction,
       (∀ r, i.messages ≠ OutMsgs.copyFailSeq r) →
       (∀ r, i.messages ≠ OutMsgs.copyDoneSeq r) →
       sent_from_stdin i =
         { i with messages := .copyFailSeq (i.copySeqRest.getD []) }) ∧
    ((standard_put (standard_sent (Instruction.init [.Query]))
        ⟨21, [(.CopyFromBegin, .blank)]⟩).map
        (fun r => (r.1.state, r.1.copySeqRest, r.1.messages)) =
      some (.sendingStdin, some [], .empty) ∧
     sendDrain 3
       { commands := [.Query],
         completed := [(21, [PMsg.obj .CopyFromBegin .blank])],
         last := (some 21, (0, 0), (0, 1)), messages := .empty,
         state := .sendingStdin, fatal := none, error_message := none,
         last_ready := none, asyncsRec := [], hookLog := [],
         copySeqRest := some [] } [] =
       ({ commands := [.Query],
          completed := [(21, [PMsg.obj .CopyFromBegin .blank])],
          last := (some 21, (0, 0), (0, 1)), messages := .empty,
          state := .recvStd, fatal := none, error_message := none,
          last_ready := none, asyncsRec := [], hookLog := [],
          copySeqRest := some [] },
        [.empty, .copyFailSeq []]) ∧
     ([OutMsgs.empty, OutMsgs.copyFailSeq []].map OutMsgs.wire).flatten =
       [MType.CopyFail] ∧
     (standard_put
        { commands := [.Query],
          completed := [(21, [PMsg.obj .CopyFromBegin .blank])],
          last := (some 21, (0, 0), (0, 1)), messages := .empty,
          state := .recvStd, fatal := none, error_message := none,
          last_ready := none, asyncsRec := [], hookLog := [],
          copySeqRest := some [] }
        ⟨22, [(.Error, .err ⟨[69, 82, 82, 79, 82], "57014", "copy fail"⟩),
              (.Ready, .ready 73)]⟩).map
        (fun r => (r.1.state, r.1.fatal, r.2)) =
      some (.complete, some false, 2)) := by
  refine ⟨?_, ?_, ?_, by decide, by decide, by decide, by decide⟩
  · intro i r h
    unfold sent_from_stdin
    rw [h]
  · intro i r h
    unfold sent_from_stdin
    rw [h]
  · intro i hf hd
    unfold sent_from_stdin
    rcases hm : i.messages with _ | l | r | r | ch
    · rfl
    · rfl
    · exact absurd hm (hf r)
    · exact absurd hm (hd r)
    · rfl

theorem claim_c9_witness :
    sent_from_stdin
      { commands := [.Query],
        completed := [(21, [PMsg.obj .CopyFromBegin .blank])],
        last := (some 21, (0, 0), (0, 1)), messages := .copyFailSeq [],
        state := .sendingStdin, fatal := none, error_message := none,
        last_ready := none, asyncsRec := [], hookLog := [],
        copySeqRest := some [] } =
      { commands := [.Query],
        completed := [(21, [PMsg.obj .CopyFromBegin .blank])],
        last := (some 21, (0, 0), (0, 1)), messages := .empty,
        state := .recvStd, fatal := none, error_message := none,
        last_ready := none, asyncsRec := [], hookLog := [],
        copySeqRest := some [] } :=
  claim_c9.1
    { commands := [.Query],
      completed := [(21, [PMsg.obj .CopyFromBegin .blank])],
      last := (some 21, (0, 0), (0, 1)), messages := .copyFailSeq [],
      state := .sendingStdin, fatal := none, error_message := none,
      last_ready := none, asyncsRec := [], hookLog := [],
      copySeqRest := some [] } [] rfl

/-- Claim C2: when an Error arrives at a step where Error is not expected,
the loop records `error_message` as the parsed Error and sets `fatal` true
exactly when the severity is (case-insensitively) FATAL or PANIC; a fatal
Error completes the instruction immediately, consuming no further message
of the group. -/
theorem claim_c2 (commands : List MType) (st : LoopSt) (cmd : MType)
    (steps : List StepMap) (sm : StepMap) (e : ServerErr)
    (rest rest2 : List WireMsg)
    (hc : commands[st.offset]? = some cmd) (hh : hook cmd = .steps steps)
    (hs : steps[st.step]? = some sm) (hl : sm.lookup .Error = none) :
    (severityFatal e.severity = true ↔
       (e.severity.map byteUpper = fatalBytes ∨
        e.severity.map byteUpper = panicBytes)) ∧
    (severityFatal e.severity = true →
       putLoop commands ((.Error, .err e) :: rest) st =
         .early { st with
                  count := st.count + 1,
                  error_message := some (.server e), fatal := some true } ∧
       putLoop commands ((.Error, .err e) :: rest) st =
         putLoop commands ((.Error, .err e) :: rest2) st) ∧
    (severityFatal e.severity = false →
       ∃ st1, (putLoop commands ((.Error, .err e) :: rest) st =
                 putLoop commands rest st1 ∨
               putLoop commands ((.Error, .err e) :: rest) st = .early st1) ∧
         st1.error_message = some (.server e) ∧ st1.fatal = some false) := by
  refine ⟨?_, ?_, ?_⟩
  · simp [severityFatal]
  · intro hft
    have hstep := putStep_error_fatal hc hh hs hl (p := .err e) hft
    constructor
    · exact putLoop_cons_halt hstep
    · rw [putLoop_cons_halt hstep, putLoop_cons_halt hstep]
  · intro hft
    by_cases hqf : cmd = .Function ∨ cmd = .Query
    · exact ⟨_, Or.inl (putLoop_cons_cont
        (putStep_error_qf hc hh hs hl (p := .err e) hft hqf)), rfl, rfl⟩
    · rcases hj : findSyncFrom commands st.offset with _ | j
      · exact ⟨_, Or.inr (putLoop_cons_halt
          (putStep_error_nosync hc hh hs hl (p := .err e) hft hqf hj)),
          rfl, rfl⟩
      · exact ⟨_, Or.inl (putLoop_cons_cont
          (putStep_error_resync hc hh hs hl (p := .err e) hft hqf hj)),
          rfl, rfl⟩

theorem claim_c2_witness :
    putLoop [MType.Parse]
      [(.Error, .err ⟨[102, 97, 116, 97, 108], "57P01", "terminating"⟩)]
      { offset := 0, step := 0, processed := [], count := 0, asyncsRec := [],
        hookLog := [], fatal := none, error_message := none,
        last_ready := none } =
      .early { offset := 0, step := 0, processed := [], count := 1,
               asyncsRec := [], hookLog := [],
               fatal := some true,
               error_message := some (.server
                 ⟨[102, 97, 116, 97, 108], "57P01", "terminating"⟩),
               last_ready := none } :=
  ((claim_c2 [MType.Parse]
      { offset := 0, step := 0, processed := [], count := 0, asyncsRec := [],
        hookLog := [], fatal := none, error_message := none,
        last_ready := none }
      .Parse [parseStep0] parseStep0
      ⟨[102, 97, 116, 97, 108], "57P01", "terminating"⟩ [] []
      rfl rfl rfl rfl).2.1 (by decide)).1

/-- Claim C1 counterexample: after a non-fatal Error resynchronizes the
machine onto the Synchronize command, a subsequent message that is not
Ready, Error, or asynchronous (here a Complete) is NOT silently
discarded: the instruction turns fatal with a protocol-violation
ClientError (code `08P01`) after consuming only two messages, instead of
discarding messages until Ready and finishing the batch non-fatally. -/
theorem claim_c1_counterexample :
    (standard_put (standard_sent (Instruction.init [.Parse, .Synchronize]))
      ⟨3, [(.Error, .err ⟨[69, 82, 82, 79, 82], "42601", "syntax error"⟩),
           (.Complete, .blank), (.Ready, .ready 73)]⟩).map
      (fun r => (r.1.fatal, r.1.state, r.1.error_message, r.2)) =
    some (some true, .complete,
      some (.client (protocolViolation .Complete)), 2) := by decide

/-- Claim C1 (amended): on a non-fatal unexpected Error while the current
command is not Query/Function, the machine scans `commands` forward to the
next Synchronize and continues from it (step 0); if none exists the
instruction completes immediately.  While resynchronizing, asynchronous
messages are forwarded to the hook and discarded from the result, further
Errors are handled the same way, and any other non-Ready message is a
fatal `08P01` protocol violation.  In the batch
`[Parse, Bind, Execute, Sync, Parse, Bind, Execute, Sync]` with a
non-fatal Error injected before the first Sync, all messages through the
first Ready are consumed and the second half executes normally. -/
theorem claim_c1_amended :
    (∀ (commands : List MType) (st : LoopSt) (cmd : MType)
       (steps : List StepMap) (sm : StepMap) (e : ServerErr)
       (rest : List WireMsg),
       commands[st.offset]? = some cmd → hook cmd = .steps steps →
       steps[st.step]? = some sm → sm.lookup .Error = none →
       severityFatal e.severity = false →
       cmd ≠ .Function → cmd ≠ .Query →
       (∀ j, findSyncFrom commands st.offset = some j →
          commands[j]? = some .Synchronize ∧ st.offset ≤ j ∧
          putLoop commands ((.Error, .err e) :: rest) st =
            putLoop commands rest
              { st with
                offset := j, step := 0, count := st.count + 1,
                error_message := some (.server e), fatal := some false }) ∧
       (findSyncFrom commands st.offset = none →
          putLoop commands ((.Error, .err e) :: rest) st =
            .early { st with
                     count := st.count + 1,
                     error_message := some (.server e),
                     fatal := some false })) ∧
    (∀ (commands : List MType) (st : LoopSt) (cmd : MType)
       (steps : List StepMap) (sm : StepMap) (x : WireMsg)
       (rest : List WireMsg),
       commands[st.offset]? = some cmd → hook cmd = .steps steps →
       steps[st.step]? = some sm → sm.lookup x.1 = none →
       isAsync x.1 = true →
       putLoop commands (x :: rest) st =
         putLoop commands rest
           (recordAsync x { st with count := st.count + 1 }) ∧
       (recordAsync x { st with count := st.count + 1 }).offset = st.offset ∧
       (recordAsync x { st with count := st.count + 1 }).step = st.step) ∧
    (∀ (commands : List MType) (st : LoopSt) (cmd : MType)
       (steps : List StepMap) (sm : StepMap) (x : WireMsg)
       (rest : List WireMsg),
       commands[st.offset]? = some cmd → hook cmd = .steps steps →
       steps[st.step]? = some sm → sm.lookup x.1 = none →
       x.1 ≠ .Error → isAsync x.1 = false →
       putLoop commands (x :: rest) st =
         .early { st with
                  count := st.count + 1,
                  error_message := some (.client (protocolViolation x.1)),
                  fatal := some true }) ∧
    (standard_put (standard_sent (Instruction.init
        [.Parse, .Bind, .Execute, .Synchronize,
         .Parse, .Bind, .Execute, .Synchronize]))
      ⟨11, [(.Error, .err ⟨[69, 82, 82, 79, 82], "42601", "syntax error"⟩),
            (.Ready, .ready 73), (.ParseComplete, .blank),
            (.BindComplete, .blank), (.Complete, .blank),
            (.Ready, .ready 73)]⟩ =
     some ({ commands := [.Parse, .Bind, .Execute, .Synchronize,
                          .Parse, .Bind, .Execute, .Synchronize],
             completed := [(11,
               [PMsg.obj .Ready (.ready 73), PMsg.obj .ParseComplete .blank,
                PMsg.obj .BindComplete .blank, PMsg.obj .Complete .blank,
                PMsg.obj .Ready (.ready 73)])],
             last := (some 11, (0, 0), (8, 0)),
             messages := .empty, state := .complete, fatal := some false,
             error_message := some (.server
               ⟨[69, 82, 82, 79, 82], "42601", "syntax error"⟩),
             last_ready := some 73, asyncsRec := [], hookLog := [],
             copySeqRest := none }, 6)) := by
  refine ⟨?_, ?_, ?_, by decide⟩
  · intro commands st cmd steps sm e rest hc hh hs hl hft hnf hnq
    have hqf : ¬(cmd = .Function ∨ cmd = .Query) := by
      rintro (h | h) <;> [exact hnf h; exact hnq h]
    constructor
    · intro j hj
      obtain ⟨hsync, hle⟩ := findSyncFrom_spec commands st.offset j hj
      exact ⟨hsync, hle, putLoop_cons_cont
        (putStep_error_resync hc hh hs hl (p := .err e) hft hqf hj)⟩
    · intro hj
      exact putLoop_cons_halt
        (putStep_error_nosync hc hh hs hl (p := .err e) hft hqf hj)
  · intro commands st cmd steps sm x rest hc hh hs hl ha
    refine ⟨putLoop_cons_cont (putStep_async hc hh hs hl ha), ?_, ?_⟩ <;>
      (unfold recordAsync; split <;> rfl)
  · intro commands st cmd steps sm x rest hc hh hs hl he ha
    exact putLoop_cons_halt (putStep_violation hc hh hs hl he ha)

theorem claim_c1_amended_witness :
    ([MType.Parse, MType.Synchronize][(1 : Nat)]? = some .Synchronize ∧
     (0 : Nat) ≤ 1 ∧
     putLoop [.Parse, .Synchronize]
       [(.Error, .err ⟨[69, 82, 82, 79, 82], "42601", "syntax error"⟩)]
       { offset := 0, step := 0, processed := [], count := 0,
         asyncsRec := [], hookLog := [], fatal := none,
         error_message := none, last_ready := none } =
       putLoop [.Parse, .Synchronize] []
         { offset := 1, step := 0, processed := [], count := 1,
           asyncsRec := [], hookLog := [],
           fatal := some false,
           error_message := some (.server
             ⟨[69, 82, 82, 79, 82], "42601", "syntax error"⟩),
           last_ready := none }) :=
  (claim_c1_amended.1 [.Parse, .Synchronize]
    { offset := 0, step := 0, processed := [], count := 0, asyncsRec := [],
      hookLog := [], fatal := none, error_message := none,
      last_ready := none }
    .Parse [parseStep0] parseStep0
    ⟨[69, 82, 82, 79, 82], "42601", "syntax error"⟩ []
    rfl rfl rfl rfl (by decide) (by decide) (by decide)).1 1 (by decide)

theorem putStep_copydata {commands : List MType} {st : LoopSt} {x : WireMsg}
    (hc : commands[st.offset]? = some .Query) (h2 : st.step = 2)
    (hx : x.1 = .CopyData) :
    putStep commands x st =
      .cont { st with
              step := 2,
              processed := st.processed ++ [PMsg.raw x.2],
              count := st.count + 1 } := by
  unfold putStep
  simp [hc, hook, h2, hx, queryStep2, List.lookup]

theorem putStep_tupledata {commands : List MType} {st : LoopSt} {x : WireMsg}
    (hc : commands[st.offset]? = some .Execute) (h1 : st.step = 1)
    (hx : x.1 = .Tuple) :
    putStep commands x st =
      .cont { st with
              step := 1,
              processed := st.processed ++ [PMsg.obj .Tuple x.2],
              count := st.count + 1 } := by
  unfold putStep
  simp [hc, hook, h1, hx, executeStep1, List.lookup]

theorem putLoop_copyrun (commands : List MType) :
    ∀ (msgs : List WireMsg) (st : LoopSt),
      (∀ x ∈ msgs, x.1 = .CopyData) →
      commands[st.offset]? = some .Query → st.step = 2 →
      putLoop commands msgs st =
        .fell { st with
                processed := st.processed ++
                  msgs.map (fun x => PMsg.raw x.2),
                count := st.count + msgs.length } := by
  intro msgs
  induction msgs with
  | nil => intro st _ _ _; simp [putLoop]
  | cons x rest ih =>
    intro st hall hc h2
    have hx : x.1 = .CopyData := hall x (List.mem_cons_self x rest)
    rw [putLoop_cons_cont (putStep_copydata hc h2 hx)]
    rw [ih { st with
             step := 2,
             processed := st.processed ++ [PMsg.raw x.2],
             count := st.count + 1 }
        (fun y hy => hall y (List.mem_cons_of_mem x hy)) hc rfl]
    congr 1
    simp [List.append_assoc]
    omega

theorem putLoop_tuplerun (commands : List MType) :
    ∀ (msgs : List WireMsg) (st : LoopSt),
      (∀ x ∈ msgs, x.1 = .Tuple) →
      commands[st.offset]? = some .Execute → st.step = 1 →
      putLoop commands msgs st =
        .fell { st with
                processed := st.processed ++
                  msgs.map (fun x => PMsg.obj .Tuple x.2),
                count := st.count + msgs.length } := by
  intro msgs
  induction msgs with
  | nil => intro st _ _ _; simp [putLoop]
  | cons x rest ih =>
    intro st hall hc h1
    have hx : x.1 = .Tuple := hall x (List.mem_cons_self x rest)
    rw [putLoop_cons_cont (putStep_tupledata hc h1 hx)]
    rw [ih { st with
             step := 1,
             processed := st.processed ++ [PMsg.obj .Tuple x.2],
             count := st.count + 1 }
        (fun y hy => hall y (List.mem_cons_of_mem x hy)) hc rfl]
    congr 1
    simp [List.append_assoc]
    omega

theorem copy_fast_eq (i : Instruction) (g : MsgGroup) (hne : g.msgs ≠ [])
    (hall : ∀ x ∈ g.msgs, x.1 = .CopyData) :
    put_copydata i g = some ({ i with
      completed := (match i.completed.getLast? with
        | none => i.completed ++
            [(g.gid, g.msgs.map (fun x => PMsg.raw x.2))]
        | some e => if e.1 ≠ g.gid then i.completed ++
            [(g.gid, g.msgs.map (fun x => PMsg.raw x.2))] else i.completed),
      last := (some g.gid, i.last.2.2, i.last.2.2) }, g.msgs.length) := by
  obtain ⟨lm, hlast⟩ : ∃ lm, g.msgs.getLast? = some lm := by
    rcases h : g.msgs.getLast? with _ | lm
    · exact absurd (List.getLast?_eq_none_iff.mp h) hne
    · exact ⟨lm, rfl⟩
  have hl : lm.1 = .CopyData := hall _ (List.mem_of_mem_getLast? hlast)
  have hfil : g.msgs.filter (fun x => x.1 = .CopyData) = g.msgs := by
    rw [List.filter_eq_self]
    intro x hx
    simp [hall x hx]
  unfold put_copydata
  simp only [hlast]
  rw [if_neg (by simp [hl]), hfil]
  rw [if_neg (by simp)]

theorem copy_mixed_eq (i : Instruction) (g : MsgGroup) (hne : g.msgs ≠ [])
    (hnot : ¬ ∀ x ∈ g.msgs, x.1 = .CopyData) :
    put_copydata i g = standard_put { i with state := .recvStd } g := by
  obtain ⟨lm, hlast⟩ : ∃ lm, g.msgs.getLast? = some lm := by
    rcases h : g.msgs.getLast? with _ | lm
    · exact absurd (List.getLast?_eq_none_iff.mp h) hne
    · exact ⟨lm, rfl⟩
  unfold put_copydata
  simp only [hlast]
  by_cases hl : lm.1 = .CopyData
  · rw [if_neg (by simp [hl])]
    obtain ⟨y, hy, hyne⟩ : ∃ y ∈ g.msgs, y.1 ≠ .CopyData := by
      push_neg at hnot
      exact hnot
    have hflt : (g.msgs.filter (fun x => x.1 = .CopyData)).length <
        g.msgs.length := by
      by_cases h : (g.msgs.filter (fun x => x.1 = .CopyData)).length <
          g.msgs.length
      · exact h
      · exfalso
        have h1 : (g.msgs.filter (fun x => x.1 = .CopyData)).length ≤
            g.msgs.length := g.msgs.length_filter_le _
        have heq : (g.msgs.filter (fun x => x.1 = .CopyData)).length =
            g.msgs.length := le_antisymm h1 (Nat.le_of_not_lt h)
        have := (List.filter_length_eq_length).mp heq y hy
        simp [hyne] at this
    rw [if_pos (by rw [List.length_map]; exact Nat.ne_of_lt hflt)]
  · rw [if_pos hl]

theorem tuple_fast_eq (i : Instruction) (g : MsgGroup) (hne : g.msgs ≠ [])
    (hall : ∀ x ∈ g.msgs, x.1 = .Tuple) :
    put_tupledata i g = some ({ i with
      completed := (match i.completed.getLast? with
        | none => i.completed ++
            [(g.gid, g.msgs.map (fun x => PMsg.obj .Tuple x.2))]
        | some e => if e.1 ≠ g.gid then i.completed ++
            [(g.gid, g.msgs.map (fun x => PMsg.obj .Tuple x.2))]
          else i.completed),
      last := (some g.gid, i.last.2.2, i.last.2.2) }, g.msgs.length) := by
  obtain ⟨lm, hlast⟩ : ∃ lm, g.msgs.getLast? = some lm := by
    rcases h : g.msgs.getLast? with _ | lm
    · exact absurd (List.getLast?_eq_none_iff.mp h) hne
    · exact ⟨lm, rfl⟩
  have hl : lm.1 = .Tuple := hall _ (List.mem_of_mem_getLast? hlast)
  have hfil : g.msgs.filter (fun x => x.1 = .Tuple) = g.msgs := by
    rw [List.filter_eq_self]
    intro x hx
    simp [hall x hx]
  unfold put_tupledata
  simp only [hlast]
  rw [if_neg (by simp [hl]), hfil]
  rw [if_neg (by simp)]

theorem tuple_mixed_eq (i : Instruction) (g : MsgGroup) (hne : g.msgs ≠ [])
    (hnot : ¬ ∀ x ∈ g.msgs, x.1 = .Tuple) :
    put_tupledata i g = standard_put { i with state := .recvStd } g := by
  obtain ⟨lm, hlast⟩ : ∃ lm, g.msgs.getLast? = some lm := by
    rcases h : g.msgs.getLast? with _ | lm
    · exact absurd (List.getLast?_eq_none_iff.mp h) hne
    · exact ⟨lm, rfl⟩
  unfold put_tupledata
  simp only [hlast]
  by_cases hl : lm.1 = .Tuple
  · rw [if_neg (by simp [hl])]
    obtain ⟨y, hy, hyne⟩ : ∃ y ∈ g.msgs, y.1 ≠ .Tuple := by
      push_neg at hnot
      exact hnot
    have hflt : (g.msgs.filter (fun x => x.1 = .Tuple)).length <
        g.msgs.length := by
      by_cases h : (g.msgs.filter (fun x => x.1 = .Tuple)).length <
          g.msgs.length
      · exact h
      · exfalso
        have h1 : (g.msgs.filter (fun x => x.1 = .Tuple)).length ≤
            g.msgs.length := g.msgs.length_filter_le _
        have heq : (g.msgs.filter (fun x => x.1 = .Tuple)).length =
            g.msgs.length := le_antisymm h1 (Nat.le_of_not_lt h)
        have := (List.filter_length_eq_length).mp heq y hy
        simp [hyne] at this
    rw [if_pos (by rw [List.length_map]; exact Nat.ne_of_lt hflt)]
  · rw [if_pos hl]

theorem copy_std_eq (i : Instruction) (g : MsgGroup) (off : Nat)
    (hne : g.msgs ≠ []) (hall : ∀ x ∈ g.msgs, x.1 = .CopyData)
    (hfr : i.last.1 ≠ some g.gid) (hL2 : i.last.2.2 = (off, 2))
    (hc : i.commands[off]? = some .Query) :
    standard_put { i with state := .recvStd } g =
      some ({ i with
        completed := (match i.completed.getLast? with
          | none => i.completed ++
              [(g.gid, g.msgs.map (fun x => PMsg.raw x.2))]
          | some e => if e.1 ≠ g.gid then i.completed ++
              [(g.gid, g.msgs.map (fun x => PMsg.raw x.2))]
            else i.completed),
        last := (some g.gid, i.last.2.2, (off, 2)),
        state := .recvCopy,
        asyncsRec := [] }, g.msgs.length) := by
  have hlt : off < i.commands.length := (List.getElem?_eq_some.mp hc).1
  obtain ⟨lm, hlast⟩ : ∃ lm, g.msgs.getLast? = some lm := by
    rcases h : g.msgs.getLast? with _ | lm
    · exact absurd (List.getLast?_eq_none_iff.mp h) hne
    · exact ⟨lm, rfl⟩
  have hrun := putLoop_copyrun i.commands g.msgs
    { offset := off, step := 2, processed := [], count := 0,
      asyncsRec := [], hookLog := i.hookLog, fatal := i.fatal,
      error_message := i.error_message, last_ready := i.last_ready }
    hall hc rfl
  dsimp only at hrun
  unfold standard_put
  simp only [startCursor, if_neg hfr, hL2, hc, hrun]
  rw [if_neg (by decide)]
  unfold finishFell
  rw [if_neg (Nat.ne_of_lt hlt)]
  simp only [hc]
  rw [if_pos (by simp [hne])]
  rw [List.nil_append, List.getLast?_map, hlast]
  simp
  exact hL2

theorem tuple_std_eq (i : Instruction) (g : MsgGroup) (off : Nat)
    (hne : g.msgs ≠ []) (hall : ∀ x ∈ g.msgs, x.1 = .Tuple)
    (hfr : i.last.1 ≠ some g.gid) (hL2 : i.last.2.2 = (off, 1))
    (hc : i.commands[off]? = some .Execute) :
    standard_put { i with state := .recvStd } g =
      some ({ i with
        completed := (match i.completed.getLast? with
          | none => i.completed ++
              [(g.gid, g.msgs.map (fun x => PMsg.obj .Tuple x.2))]
          | some e => if e.1 ≠ g.gid then i.completed ++
              [(g.gid, g.msgs.map (fun x => PMsg.obj .Tuple x.2))]
            else i.completed),
        last := (some g.gid, i.last.2.2, (off, 1)),
        state := .recvTuple,
        asyncsRec := [] }, g.msgs.length) := by
  have hlt : off < i.commands.length := (List.getElem?_eq_some.mp hc).1
  obtain ⟨lm, hlast⟩ : ∃ lm, g.msgs.getLast? = some lm := by
    rcases h : g.msgs.getLast? with _ | lm
    · exact absurd (List.getLast?_eq_none_iff.mp h) hne
    · exact ⟨lm, rfl⟩
  have hrun := putLoop_tuplerun i.commands g.msgs
    { offset := off, step := 1, processed := [], count := 0,
      asyncsRec := [], hookLog := i.hookLog, fatal := i.fatal,
      error_message := i.error_message, last_ready := i.last_ready }
    hall hc rfl
  dsimp only at hrun
  unfold standard_put
  simp only [startCursor, if_neg hfr, hL2, hc, hrun]
  rw [if_neg (by decide)]
  unfold finishFell
  rw [if_neg (Nat.ne_of_lt hlt)]
  simp only [hc]
  rw [if_pos (by simp [hne])]
  rw [List.nil_append, List.getLast?_map, hlast]
  simp
  exact hL2

/-- Claim C5: a nonempty group is processed by the specialized fast path
(`put_copydata`/`put_tupledata`) iff all its messages are of the
homogeneous type (the fast path stores the bulk result and leaves the
cursor in place); a mixed group reverts the state to `standard_put` and
replays the same group; and in the proper copy-out / row-data context
the fast path yields `completed` (and cursor, state, error state)
identical to what the standard path alone would produce. -/
theorem claim_c5 :
    (∀ (i : Instruction) (g : MsgGroup), g.msgs ≠ [] →
      ((∀ x ∈ g.msgs, x.1 = .CopyData) →
        put_copydata i g = some ({ i with
          completed := (match i.completed.getLast? with
            | none => i.completed ++
                [(g.gid, g.msgs.map (fun x => PMsg.raw x.2))]
            | some e => if e.1 ≠ g.gid then i.completed ++
                [(g.gid, g.msgs.map (fun x => PMsg.raw x.2))]
              else i.completed),
          last := (some g.gid, i.last.2.2, i.last.2.2) }, g.msgs.length)) ∧
      ((¬ ∀ x ∈ g.msgs, x.1 = .CopyData) →
        put_copydata i g = standard_put { i with state := .recvStd } g)) ∧
    (∀ (i : Instruction) (g : MsgGroup) (off : Nat), g.msgs ≠ [] →
      (∀ x ∈ g.msgs, x.1 = .CopyData) →
      i.last.1 ≠ some g.gid → i.last.2.2 = (off, 2) →
      i.commands[off]? = some .Query → i.state = .recvCopy →
      ∃ i1 i2, put_copydata i g = some (i1, g.msgs.length) ∧
        standard_put { i with state := .recvStd } g =
          some (i2, g.msgs.length) ∧
        i1.completed = i2.completed ∧ i1.last = i2.last ∧
        i1.state = i2.state ∧ i1.fatal = i2.fatal ∧
        i1.error_message = i2.error_message) ∧
    (∀ (i : Instruction) (g : MsgGroup), g.msgs ≠ [] →
      ((∀ x ∈ g.msgs, x.1 = .Tuple) →
        put_tupledata i g = some ({ i with
          completed := (match i.completed.getLast? with
            | none => i.completed ++
                [(g.gid, g.msgs.map (fun x => PMsg.obj .Tuple x.2))]
            | some e => if e.1 ≠ g.gid then i.completed ++
                [(g.gid, g.msgs.map (fun x => PMsg.obj .Tuple x.2))]
              else i.completed),
          last := (some g.gid, i.last.2.2, i.last.2.2) }, g.msgs.length)) ∧
      ((¬ ∀ x ∈ g.msgs, x.1 = .Tuple) →
        put_tupledata i g = standard_put { i with state := .recvStd } g)) ∧
    (∀ (i : Instruction) (g : MsgGroup) (off : Nat), g.msgs ≠ [] →
      (∀ x ∈ g.msgs, x.1 = .Tuple) →
      i.last.1 ≠ some g.gid → i.last.2.2 = (off, 1) →
      i.commands[off]? = some .Execute → i.state = .recvTuple →
      ∃ i1 i2, put_tupledata i g = some (i1, g.msgs.length) ∧
        standard_put { i with state := .recvStd } g =
          some (i2, g.msgs.length) ∧
        i1.completed = i2.completed ∧ i1.last = i2.last ∧
        i1.state = i2.state ∧ i1.fatal = i2.fatal ∧
        i1.error_message = i2.error_message) := by
  refine ⟨?_, ?_, ?_, ?_⟩
  · intro i g hne
    exact ⟨copy_fast_eq i g hne, copy_mixed_eq i g hne⟩
  · intro i g off hne hall hfr hL2 hc hstate
    refine ⟨_, _, copy_fast_eq i g hne hall,
      copy_std_eq i g off hne hall hfr hL2 hc, rfl, ?_, ?_, rfl, rfl⟩
    · rw [hL2]
    · exact hstate
  · intro i g hne
    exact ⟨tuple_fast_eq i g hne, tuple_mixed_eq i g hne⟩
  · intro i g off hne hall hfr hL2 hc hstate
    refine ⟨_, _, tuple_fast_eq i g hne hall,
      tuple_std_eq i g off hne hall hfr hL2 hc, rfl, ?_, ?_, rfl, rfl⟩
    · rw [hL2]
    · exact hstate

theorem claim_c5_witness :
    ∃ i1 i2, put_copydata
        { commands := [.Query],
          completed := [(31, [PMsg.obj .CopyToBegin .blank])],
          last := (some 31, (0, 0), (0, 2)), messages := .empty,
          state := .recvCopy, fatal := none, error_message := none,
          last_ready := none, asyncsRec := [], hookLog := [],
          copySeqRest := none }
        ⟨32, [(.CopyData, .raw [1]), (.CopyData, .raw [2])]⟩ =
        some (i1, 2) ∧
      standard_put
        { commands := [.Query],
          completed := [(31, [PMsg.obj .CopyToBegin .blank])],
          last := (some 31, (0, 0), (0, 2)), messages := .empty,
          state := .recvStd, fatal := none, error_message := none,
          last_ready := none, asyncsRec := [], hookLog := [],
          copySeqRest := none }
        ⟨32, [(.CopyData, .raw [1]), (.CopyData, .raw [2])]⟩ =
        some (i2, 2) ∧
      i1.completed = i2.completed ∧ i1.last = i2.last ∧
      i1.state = i2.state ∧ i1.fatal = i2.fatal ∧
      i1.error_message = i2.error_message :=
  claim_c5.2.1
    { commands := [.Query],
      completed := [(31, [PMsg.obj .CopyToBegin .blank])],
      last := (some 31, (0, 0), (0, 2)), messages := .empty,
      state := .recvCopy, fatal := none, error_message := none,
      last_ready := none, asyncsRec := [], hookLog := [],
      copySeqRest := none }
    ⟨32, [(.CopyData, .raw [1]), (.CopyData, .raw [2])]⟩ 0
    (by decide) (by decide) (by decide) (by decide) (by decide) (by decide)

theorem recordAsync_cur4 (x : WireMsg) (st : LoopSt) :
    (recordAsync x st).cur4 = st.cur4 := by
  unfold recordAsync
  split <;> rfl

theorem putStep_cur (commands : List MType) (x : WireMsg) (st1 st2 : LoopSt)
    (ho : st1.offset = st2.offset) (hs : st1.step = st2.step)
    (hp : st1.processed = st2.processed) (hn : st1.count = st2.count) :
    (putStep commands x st1).tagCur = (putStep commands x st2).tagCur := by
  unfold putStep
  rw [ho, hs, hp, hn]
  cases hcm : commands[st2.offset]? with
  | none => rfl
  | some cmd =>
    dsimp only
    cases hh : hook cmd with
    | flushNone => rfl
    | absent => rfl
    | steps steps =>
      dsimp only
      cases hsm : steps[st2.step]? with
      | none => rfl
      | some sm =>
        dsimp only
        cases hlk : sm.lookup x.1 with
        | some v =>
          obtain ⟨rawFlag, nextStep⟩ := v
          dsimp only
          cases nextStep with
          | some ns => rfl
          | none =>
            dsimp only
            cases hadv : advanceCmd commands st2.offset <;>
              simp [StepOut.tagCur, LoopSt.cur4]
        | none =>
          dsimp only
          by_cases he : x.1 = .Error
          · rw [if_pos he, if_pos he]
            by_cases hft : severityFatal (errOf x.2).severity
            · simp only [hft, if_true]
              rfl
            · simp only [hft, Bool.false_eq_true, if_false]
              by_cases hqf : cmd = .Function ∨ cmd = .Query
              · rw [if_pos hqf, if_pos hqf]
                rfl
              · rw [if_neg hqf, if_neg hqf]
                cases hfs : findSyncFrom commands st2.offset <;> rfl
          · rw [if_neg he, if_neg he]
            by_cases ha : isAsync x.1
            · simp only [ha, if_true]
              unfold recordAsync
              by_cases hm1 : x ∈ st1.asyncsRec <;>
                by_cases hm2 : x ∈ st2.asyncsRec <;>
                  simp [hm1, hm2, StepOut.tagCur, LoopSt.cur4]
            · simp only [ha, Bool.false_eq_true, if_false]
              rfl

theorem putLoop_cur (commands : List MType) :
    ∀ (msgs : List WireMsg) (st1 st2 : LoopSt),
      st1.offset = st2.offset → st1.step = st2.step →
      st1.processed = st2.processed → st1.count = st2.count →
      (putLoop commands msgs st1).tagCur =
        (putLoop commands msgs st2).tagCur := by
  intro msgs
  induction msgs with
  | nil =>
    intro st1 st2 ho hs hp hn
    simp [putLoop, LoopRes.tagCur, LoopSt.cur4, ho, hs, hp, hn]
  | cons x rest ih =>
    intro st1 st2 ho hs hp hn
    have hstep := putStep_cur commands x st1 st2 ho hs hp hn
    rcases h1 : putStep commands x st1 with a | a | a | _ <;>
      rcases h2 : putStep commands x st2 with b | b | b | _ <;>
        rw [h1, h2] at hstep <;>
          simp only [StepOut.tagCur, Option.some.injEq, Prod.mk.injEq,
            LoopSt.cur4, reduceCtorEq, true_and] at hstep <;>
        first
          | exact hstep.elim
          | exact hstep.1.elim
          | exact absurd hstep.1 (by decide)
          | (obtain ⟨e1, e2, e3, e4⟩ := hstep
             first
               | (rw [putLoop_cons_cont h1, putLoop_cons_cont h2]
                  exact ih a b e1 e2 e3 e4)
               | (rw [putLoop_cons_halt h1, putLoop_cons_halt h2]
                  simp [LoopRes.tagCur, LoopSt.cur4, e1, e2, e3, e4])
               | (rw [putLoop_cons_done h1, putLoop_cons_done h2]
                  simp [LoopRes.tagCur, LoopSt.cur4, e1, e2, e3, e4]))
          | simp [putLoop, h1, h2]

theorem completed1_getLast (completed : List (Nat × List PMsg)) (gid : Nat)
    (p : List PMsg) :
    ∃ ms, (match completed.getLast? with
      | none => completed ++ [(gid, p)]
      | some e => if e.1 ≠ gid then completed ++ [(gid, p)]
          else completed).getLast? = some (gid, ms) := by
  rcases hl : completed.getLast? with _ | e
  · exact ⟨p, by simp [List.getLast?_concat]⟩
  · dsimp only
    by_cases hg : e.1 ≠ gid
    · rw [if_pos hg]
      exact ⟨p, by simp [List.getLast?_concat]⟩
    · rw [if_neg hg]
      push_neg at hg
      refine ⟨e.2, ?_⟩
      rw [hl, hg.symm]

theorem finishFell_facts (i : Instruction) (gid : Nat) (st : LoopSt)
    (i' : Instruction) (n : Nat) (h : finishFell i gid st = some (i', n)) :
    n = st.count ∧ i'.commands = i.commands ∧
    i'.last = (some gid, i.last.2.2, (st.offset, st.step)) ∧
    (∃ ms, i'.completed.getLast? = some (gid, ms)) ∧
    (st.offset = i.commands.length ∨
      (i.commands[st.offset]?).isSome = true) := by
  simp only [finishFell] at h
  split at h
  · rw [Option.some.injEq, Prod.mk.injEq] at h
    obtain ⟨hrec, hcnt⟩ := h
    subst hcnt
    subst hrec
    refine ⟨rfl, rfl, rfl, completed1_getLast _ _ _, ?_⟩
    left
    assumption
  · split at h
    · exact absurd h (by simp)
    · rename_i hoff c heq
      split at h
      · split at h <;>
          (rw [Option.some.injEq, Prod.mk.injEq] at h
           obtain ⟨hrec, hcnt⟩ := h
           subst hcnt
           subst hrec
           exact ⟨rfl, rfl, rfl, completed1_getLast _ _ _,
             Or.inr (by rw [heq]; rfl)⟩)
      · rw [Option.some.injEq, Prod.mk.injEq] at h
        obtain ⟨hrec, hcnt⟩ := h
        subst hcnt
        subst hrec
        exact ⟨rfl, rfl, rfl, completed1_getLast _ _ _,
          Or.inr (by rw [heq]; rfl)⟩

theorem finishFell_keep (i : Instruction) (gid : Nat) (st : LoopSt)
    (hdom : st.offset = i.commands.length ∨
      (i.commands[st.offset]?).isSome = true)
    (ms : List PMsg) (hlast : i.completed.getLast? = some (gid, ms)) :
    ∃ i2, finishFell i gid st = some (i2, st.count) ∧
      i2.completed = i.completed := by
  have hcomp : (match i.completed.getLast? with
      | none => i.completed ++ [(gid, st.processed)]
      | some e => if e.1 ≠ gid then i.completed ++ [(gid, st.processed)]
          else i.completed) = i.completed := by
    rw [hlast]
    simp
  simp only [finishFell, hcomp]
  by_cases hoff : st.offset = i.commands.length
  · rw [if_pos hoff]
    exact ⟨_, rfl, rfl⟩
  · rw [if_neg hoff]
    rcases hdom with h | h
    · exact absurd h hoff
    · rcases hc : i.commands[st.offset]? with _ | c
      · rw [hc] at h
        simp at h
      · dsimp only
        by_cases hcond : (c = .Execute ∨ c = .Query) ∧ st.processed ≠ []
        · rw [if_pos hcond]
          rcases hp : st.processed.getLast? with _ | pm
          · exact ⟨_, rfl, rfl⟩
          · cases pm with
            | obj t p => cases t <;> exact ⟨_, rfl, rfl⟩
            | raw p => exact ⟨_, rfl, rfl⟩
        · rw [if_neg hcond]
          exact ⟨_, rfl, rfl⟩

/-- Claim C3: `put` is idempotent for a newly delivered group: if
`standard_put` applied to a group object that is not the recorded last
group succeeds, re-presenting the identical group object replays from the
recorded pre-group cursor and yields exactly the same `completed` output
(no duplicate group is appended) and the same count. -/
theorem claim_c3 (i : Instruction) (g : MsgGroup) (i1 : Instruction)
    (n1 : Nat) (hfr : i.last.1 ≠ some g.gid)
    (h1 : standard_put i g = some (i1, n1)) :
    ∃ i2, standard_put i1 g = some (i2, n1) ∧
      i2.completed = i1.completed := by
  simp only [standard_put, startCursor, if_neg hfr] at h1
  rcases hcm : i.commands[i.last.2.2.1]? with _ | cmd0
  · rw [hcm] at h1
    exact absurd h1 (by simp)
  · rw [hcm] at h1
    dsimp only at h1
    by_cases habs : hook cmd0 = HookVal.absent
    · rw [if_pos habs] at h1
      exact absurd h1 (by simp)
    · rw [if_neg habs] at h1
      rcases hrun : putLoop i.commands g.msgs
          { offset := i.last.2.2.1, step := i.last.2.2.2, processed := [],
            count := 0, asyncsRec := [], hookLog := i.hookLog,
            fatal := i.fatal, error_message := i.error_message,
            last_ready := i.last_ready } with stE | stF | _
      · -- first call returned early: completed and last unchanged
        rw [hrun] at h1
        rw [Option.some.injEq, Prod.mk.injEq] at h1
        obtain ⟨hrec, hcnt⟩ := h1
        subst hcnt
        subst hrec
        simp only [standard_put, startCursor, if_neg hfr]
        rw [hcm]
        dsimp only
        rw [if_neg habs]
        have hcur := putLoop_cur i.commands g.msgs
          { offset := i.last.2.2.1, step := i.last.2.2.2, processed := [],
            count := 0, asyncsRec := [], hookLog := stE.hookLog,
            fatal := stE.fatal, error_message := stE.error_message,
            last_ready := stE.last_ready }
          { offset := i.last.2.2.1, step := i.last.2.2.2, processed := [],
            count := 0, asyncsRec := [], hookLog := i.hookLog,
            fatal := i.fatal, error_message := i.error_message,
            last_ready := i.last_ready } rfl rfl rfl rfl
        rw [hrun] at hcur
        rcases hrun2 : putLoop i.commands g.msgs
            { offset := i.last.2.2.1, step := i.last.2.2.2, processed := [],
              count := 0, asyncsRec := [], hookLog := stE.hookLog,
              fatal := stE.fatal, error_message := stE.error_message,
              last_ready := stE.last_ready } with stE2 | stF2 | _
        · rw [hrun2] at hcur
          simp only [LoopRes.tagCur, Option.some.injEq, Prod.mk.injEq,
            LoopSt.cur4, true_and] at hcur
          have e4 : stE2.count = stE.count := hcur.2.2.2
          refine ⟨{ i with
                    fatal := stE2.fatal,
                    error_message := stE2.error_message,
                    last_ready := stE2.last_ready,
                    asyncsRec := stE2.asyncsRec,
                    hookLog := stE2.hookLog,
                    state := .complete }, ?_, rfl⟩
          dsimp only
          rw [e4]
        · rw [hrun2] at hcur
          exact absurd hcur (by simp [LoopRes.tagCur])
        · rw [hrun2] at hcur
          exact absurd hcur (by simp [LoopRes.tagCur])
      · -- first call fell through to the post-loop bookkeeping
        rw [hrun] at h1
        obtain ⟨hcnt, hcmds, hlast1, ⟨ms, hgl⟩, hdom⟩ :=
          finishFell_facts i g.gid stF i1 n1 h1
        subst hcnt
        simp only [standard_put, startCursor, hlast1, hcmds,
          eq_self_iff_true, if_true]
        rw [hcm]
        dsimp only
        rw [if_neg habs]
        have hcur := putLoop_cur i.commands g.msgs
          { offset := i.last.2.2.1, step := i.last.2.2.2, processed := [],
            count := 0, asyncsRec := i1.asyncsRec, hookLog := i1.hookLog,
            fatal := i1.fatal, error_message := i1.error_message,
            last_ready := i1.last_ready }
          { offset := i.last.2.2.1, step := i.last.2.2.2, processed := [],
            count := 0, asyncsRec := [], hookLog := i.hookLog,
            fatal := i.fatal, error_message := i.error_message,
            last_ready := i.last_ready } rfl rfl rfl rfl
        rw [hrun] at hcur
        rcases hrun2 : putLoop i.commands g.msgs
            { offset := i.last.2.2.1, step := i.last.2.2.2, processed := [],
              count := 0, asyncsRec := i1.asyncsRec, hookLog := i1.hookLog,
              fatal := i1.fatal, error_message := i1.error_message,
              last_ready := i1.last_ready } with stE2 | stF2 | _
        · rw [hrun2] at hcur
          exact absurd hcur (by simp [LoopRes.tagCur])
        · rw [hrun2] at hcur
          simp only [LoopRes.tagCur, Option.some.injEq, Prod.mk.injEq,
            LoopSt.cur4, true_and] at hcur
          obtain ⟨e1, _, _, e4⟩ := hcur
          have hdom2 : stF2.offset = i1.commands.length ∨
              (i1.commands[stF2.offset]?).isSome = true := by
            rw [hcmds, e1]
            exact hdom
          obtain ⟨i2, hff, hcomp⟩ := finishFell_keep i1 g.gid stF2 hdom2 ms hgl
          refine ⟨i2, ?_, hcomp⟩
          dsimp only
          rw [← e4]
          exact hff
        · rw [hrun2] at hcur
          exact absurd hcur (by simp [LoopRes.tagCur])
      · rw [hrun] at h1
        exact absurd h1 (by simp)

theorem claim_c3_witness :
    ∃ i2, standard_put
        { commands := [.Parse],
          completed := [(5, [PMsg.obj .ParseComplete .blank])],
          last := (some 5, (0, 0), (1, 0)), messages := .empty,
          state := .complete, fatal := none, error_message := none,
          last_ready := none, asyncsRec := [], hookLog := [],
          copySeqRest := none }
        ⟨5, [(.ParseComplete, .blank)]⟩ = some (i2, 1) ∧
      i2.completed =
        ({ commands := [.Parse],
           completed := [(5, [PMsg.obj .ParseComplete .blank])],
           last := (some 5, (0, 0), (1, 0)), messages := .empty,
           state := .complete, fatal := none, error_message := none,
           last_ready := none, asyncsRec := [], hookLog := [],
           copySeqRest := none } : Instruction).completed :=
  claim_c3 (standard_sent (Instruction.init [.Parse]))
    ⟨5, [(.ParseComplete, .blank)]⟩
    { commands := [.Parse],
      completed := [(5, [PMsg.obj .ParseComplete .blank])],
      last := (some 5, (0, 0), (1, 0)), messages := .empty,
      state := .complete, fatal := none, error_message := none,
      last_ready := none, asyncsRec := [], hookLog := [],
      copySeqRest := none }
    1 (by decide) (by decide)

theorem putStep_delta (commands : List MType) (x : WireMsg) (st st' : LoopSt)
    (h : (putStep commands x st).stOf = some st') :
    ((st'.asyncsRec = st.asyncsRec ∧ st'.hookLog = st.hookLog) ∨
     (isAsync x.1 = true ∧ x ∉ st.asyncsRec ∧
      st'.asyncsRec = st.asyncsRec ++ [x] ∧
      st'.hookLog = st.hookLog ++ [PMsg.obj x.1 x.2])) ∧
    (st'.processed = st.processed ∨
     ∃ r, st'.processed = st.processed ++ [r] ∧ nonAsyncP r = true) := by
  unfold putStep at h
  rcases hcm : commands[st.offset]? with _ | cmd
  · rw [hcm] at h
    exact absurd h (by simp [StepOut.stOf])
  · rw [hcm] at h
    dsimp only at h
    cases hh : hook cmd with
    | flushNone =>
      rw [hh] at h
      exact absurd h (by simp [StepOut.stOf])
    | absent =>
      rw [hh] at h
      exact absurd h (by simp [StepOut.stOf])
    | steps steps =>
      rw [hh] at h
      dsimp only at h
      rcases hsm : steps[st.step]? with _ | sm
      · rw [hsm] at h
        exact absurd h (by simp [StepOut.stOf])
      · rw [hsm] at h
        dsimp only at h
        have hmem : sm ∈ steps := List.getElem?_mem hsm
        rcases hlk : sm.lookup x.1 with _ | v
        · rw [hlk] at h
          dsimp only [StepOut.stOf] at h
          by_cases he : x.1 = .Error
          · rw [if_pos he] at h
            by_cases hft : severityFatal (errOf x.2).severity = true
            · rw [if_pos hft] at h
              dsimp only [StepOut.stOf] at h
              rw [Option.some.injEq] at h
              subst h
              exact ⟨Or.inl ⟨rfl, rfl⟩, Or.inl rfl⟩
            · rw [if_neg hft] at h
              by_cases hqf : cmd = .Function ∨ cmd = .Query
              · rw [if_pos hqf] at h
                dsimp only [StepOut.stOf] at h
                rw [Option.some.injEq] at h
                subst h
                exact ⟨Or.inl ⟨rfl, rfl⟩, Or.inl rfl⟩
              · rw [if_neg hqf] at h
                rcases hfs : findSyncFrom commands st.offset with _ | j
                · rw [hfs] at h
                  simp only [StepOut.stOf, Option.some.injEq] at h
                  subst h
                  exact ⟨Or.inl ⟨rfl, rfl⟩, Or.inl rfl⟩
                · rw [hfs] at h
                  simp only [StepOut.stOf, Option.some.injEq] at h
                  subst h
                  exact ⟨Or.inl ⟨rfl, rfl⟩, Or.inl rfl⟩
          · rw [if_neg he] at h
            by_cases ha : isAsync x.1 = true
            · rw [if_pos ha] at h
              unfold recordAsync at h
              dsimp only at h
              by_cases hm : x ∈ st.asyncsRec
              · rw [if_pos hm] at h
                simp only [StepOut.stOf, Option.some.injEq] at h
                subst h
                exact ⟨Or.inl ⟨rfl, rfl⟩, Or.inl rfl⟩
              · rw [if_neg hm] at h
                simp only [StepOut.stOf, Option.some.injEq] at h
                subst h
                exact ⟨Or.inr ⟨ha, hm, rfl, rfl⟩, Or.inl rfl⟩
            · rw [if_neg ha] at h
              dsimp only [StepOut.stOf] at h
              rw [Option.some.injEq] at h
              subst h
              exact ⟨Or.inl ⟨rfl, rfl⟩, Or.inl rfl⟩
        · obtain ⟨rawFlag, nextStep⟩ := v
          rw [hlk] at h
          dsimp only at h
          have hna : nonAsyncP (if rawFlag then PMsg.raw x.2
              else PMsg.obj x.1 x.2) = true := by
            cases rawFlag
            · simp only [Bool.false_eq_true, if_false, nonAsyncP]
              by_cases ha : isAsync x.1 = true
              · have hnone := hookNoAsync_lookup hh hmem ha
                rw [hnone] at hlk
                exact absurd hlk (by simp)
              · simp [Bool.not_eq_true] at ha
                simp [ha]
            · simp [nonAsyncP]
          cases nextStep with
          | some ns =>
            dsimp only [StepOut.stOf] at h
            rw [Option.some.injEq] at h
            subst h
            exact ⟨Or.inl ⟨rfl, rfl⟩, Or.inr ⟨_, rfl, hna⟩⟩
          | none =>
            dsimp only at h
            rcases hadv : advanceCmd commands st.offset with o | o | _
            · rw [hadv] at h
              simp only [StepOut.stOf, Option.some.injEq] at h
              subst h
              exact ⟨Or.inl ⟨rfl, rfl⟩, Or.inr ⟨_, rfl, hna⟩⟩
            · rw [hadv] at h
              simp only [StepOut.stOf, Option.some.injEq] at h
              subst h
              exact ⟨Or.inl ⟨rfl, rfl⟩, Or.inr ⟨_, rfl, hna⟩⟩
            · rw [hadv] at h
              exact absurd h (by simp [StepOut.stOf])

theorem processed_trans {base mid : List PMsg}
    (h1 : mid = base ∨ ∃ r0, mid = base ++ [r0] ∧ nonAsyncP r0 = true) :
    ∀ r ∈ mid, r ∈ base ∨ nonAsyncP r = true := by
  intro r hr
  rcases h1 with rfl | ⟨r0, rfl, hna⟩
  · exact Or.inl hr
  · rcases List.mem_append.mp hr with hm | hm
    · exact Or.inl hm
    · rw [List.mem_singleton] at hm
      subst hm
      exact Or.inr hna

theorem putLoop_delta (commands : List MType) :
    ∀ (msgs : List WireMsg) (st st' : LoopSt),
      (putLoop commands msgs st = .early st' ∨
       putLoop commands msgs st = .fell st') →
      ∃ d : List WireMsg, d.Nodup ∧
        (∀ y ∈ d, y ∉ st.asyncsRec ∧ y ∈ msgs ∧ isAsync y.1 = true) ∧
        st'.asyncsRec = st.asyncsRec ++ d ∧
        st'.hookLog = st.hookLog ++ d.map (fun y => PMsg.obj y.1 y.2) ∧
        (∀ r ∈ st'.processed, r ∈ st.processed ∨ nonAsyncP r = true) := by
  intro msgs
  induction msgs with
  | nil =>
    intro st st' h
    rcases h with h | h
    · exact absurd h (by simp [putLoop])
    · have hst : st = st' := by
        simpa [putLoop] using h
      subst hst
      exact ⟨[], List.nodup_nil, by simp, by simp, by simp,
        fun r hr => Or.inl hr⟩
  | cons x rest ih =>
    intro st st' h
    simp only [putLoop] at h
    rcases hstep : putStep commands x st with a | a | a | _
    · rw [hstep] at h
      dsimp only at h
      have hd := putStep_delta commands x st a (by rw [hstep]; rfl)
      obtain ⟨hasy, hproc⟩ := hd
      obtain ⟨d', hnodup, hmem, hae, hhe, hpe⟩ := ih a st' h
      rcases hasy with ⟨ha1, ha2⟩ | ⟨hax, hnm, ha1, ha2⟩
      · refine ⟨d', hnodup, ?_, by rw [hae, ha1], by rw [hhe, ha2], ?_⟩
        · intro y hy
          obtain ⟨m1, m2, m3⟩ := hmem y hy
          rw [ha1] at m1
          exact ⟨m1, List.mem_cons_of_mem x m2, m3⟩
        · intro r hr
          rcases hpe r hr with hin | hna
          · exact processed_trans hproc r hin
          · exact Or.inr hna
      · refine ⟨x :: d', ?_, ?_, ?_, ?_, ?_⟩
        · rw [List.nodup_cons]
          refine ⟨?_, hnodup⟩
          intro hx
          have := (hmem x hx).1
          rw [ha1] at this
          exact this (List.mem_append_right _ (List.mem_singleton_self x))
        · intro y hy
          rcases List.mem_cons.mp hy with rfl | hy'
          · exact ⟨hnm, List.mem_cons_self y rest, hax⟩
          · obtain ⟨m1, m2, m3⟩ := hmem y hy'
            rw [ha1] at m1
            refine ⟨fun hc => m1 (List.mem_append_left _ hc),
              List.mem_cons_of_mem x m2, m3⟩
        · rw [hae, ha1]
          simp
        · rw [hhe, ha2]
          simp
        · intro r hr
          rcases hpe r hr with hin | hna
          · exact processed_trans hproc r hin
          · exact Or.inr hna
    · rw [hstep] at h
      dsimp only at h
      have heq : a = st' := by
        rcases h with h | h
        · exact (LoopRes.early.inj h)
        · exact absurd h (by simp)
      subst heq
      have hd := putStep_delta commands x st a (by rw [hstep]; rfl)
      obtain ⟨hasy, hproc⟩ := hd
      rcases hasy with ⟨ha1, ha2⟩ | ⟨hax, hnm, ha1, ha2⟩
      · exact ⟨[], List.nodup_nil, by simp, by simp [ha1], by simp [ha2],
          processed_trans hproc⟩
      · refine ⟨[x], List.nodup_singleton x, ?_, by simp [ha1],
          by simp [ha2], processed_trans hproc⟩
        intro y hy
        rw [List.mem_singleton] at hy
        subst hy
        exact ⟨hnm, List.mem_cons_self y rest, hax⟩
    · rw [hstep] at h
      dsimp only at h
      have heq : a = st' := by
        rcases h with h | h
        · exact absurd h (by simp)
        · exact (LoopRes.fell.inj h)
      subst heq
      have hd := putStep_delta commands x st a (by rw [hstep]; rfl)
      obtain ⟨hasy, hproc⟩ := hd
      rcases hasy with ⟨ha1, ha2⟩ | ⟨hax, hnm, ha1, ha2⟩
      · exact ⟨[], List.nodup_nil, by simp, by simp [ha1], by simp [ha2],
          processed_trans hproc⟩
      · refine ⟨[x], List.nodup_singleton x, ?_, by simp [ha1],
          by simp [ha2], processed_trans hproc⟩
        intro y hy
        rw [List.mem_singleton] at hy
        subst hy
        exact ⟨hnm, List.mem_cons_self y rest, hax⟩
    · rw [hstep] at h
      dsimp only at h
      rcases h with h | h <;> exact absurd h (by simp)

theorem completed1_cases (completed : List (Nat × List PMsg)) (gid : Nat)
    (p : List PMsg) :
    (match completed.getLast? with
      | none => completed ++ [(gid, p)]
      | some e => if e.1 ≠ gid then completed ++ [(gid, p)]
          else completed) = completed ∨
    (match completed.getLast? with
      | none => completed ++ [(gid, p)]
      | some e => if e.1 ≠ gid then completed ++ [(gid, p)]
          else completed) = completed ++ [(gid, p)] := by
  rcases hl : completed.getLast? with _ | e
  · exact Or.inr rfl
  · dsimp only
    by_cases hg : e.1 ≠ gid
    · rw [if_pos hg]
      exact Or.inr rfl
    · rw [if_neg hg]
      exact Or.inl rfl

theorem finishFell_fields (i : Instruction) (gid : Nat) (st : LoopSt)
    (i' : Instruction) (n : Nat) (h : finishFell i gid st = some (i', n)) :
    i'.hookLog = st.hookLog ∧
    (i'.completed = i.completed ∨
     i'.completed = i.completed ++ [(gid, st.processed)]) := by
  simp only [finishFell] at h
  split at h
  · rw [Option.some.injEq, Prod.mk.injEq] at h
    obtain ⟨hrec, hcnt⟩ := h
    subst hrec
    exact ⟨rfl, completed1_cases _ _ _⟩
  · split at h
    · exact absurd h (by simp)
    · split at h
      · split at h <;>
          (rw [Option.some.injEq, Prod.mk.injEq] at h
           obtain ⟨hrec, hcnt⟩ := h
           subst hrec
           exact ⟨rfl, completed1_cases _ _ _⟩)
      · rw [Option.some.injEq, Prod.mk.injEq] at h
        obtain ⟨hrec, hcnt⟩ := h
        subst hrec
        exact ⟨rfl, completed1_cases _ _ _⟩

theorem standard_put_delta (i : Instruction) (g : MsgGroup) (i' : Instruction)
    (n : Nat) (h : standard_put i g = some (i', n)) :
    ∃ d : List WireMsg, d.Nodup ∧
      (∀ y ∈ d, y ∉ (if i.last.1 = some g.gid then i.asyncsRec else []) ∧
        y ∈ g.msgs ∧ isAsync y.1 = true) ∧
      i'.hookLog = i.hookLog ++ d.map (fun y => PMsg.obj y.1 y.2) ∧
      (∀ e ∈ i'.completed, e ∈ i.completed ∨
        ∀ r ∈ e.2, nonAsyncP r = true) := by
  simp only [standard_put] at h
  rcases hcm : i.commands[(startCursor i g.gid).1]? with _ | cmd0
  · rw [hcm] at h
    exact absurd h (by simp)
  · rw [hcm] at h
    dsimp only at h
    by_cases habs : hook cmd0 = HookVal.absent
    · rw [if_pos habs] at h
      exact absurd h (by simp)
    · rw [if_neg habs] at h
      rcases hrun : putLoop i.commands g.msgs
          { offset := (startCursor i g.gid).1,
            step := (startCursor i g.gid).2, processed := [], count := 0,
            asyncsRec := if i.last.1 = some g.gid then i.asyncsRec else [],
            hookLog := i.hookLog, fatal := i.fatal,
            error_message := i.error_message,
            last_ready := i.last_ready } with stE | stF | _
      · rw [hrun] at h
        rw [Option.some.injEq, Prod.mk.injEq] at h
        obtain ⟨hrec, hcnt⟩ := h
        subst hrec
        obtain ⟨d, hnd, hmem, hasy, hhl, hproc⟩ :=
          putLoop_delta i.commands g.msgs _ stE (Or.inl hrun)
        exact ⟨d, hnd, hmem, hhl, fun e he => Or.inl he⟩
      · rw [hrun] at h
        obtain ⟨hhlF, hcomp⟩ := finishFell_fields i g.gid stF i' n h
        obtain ⟨d, hnd, hmem, hasy, hhl2, hproc⟩ :=
          putLoop_delta i.commands g.msgs _ stF (Or.inr hrun)
        refine ⟨d, hnd, hmem, ?_, ?_⟩
        · rw [hhlF]
          exact hhl2
        · intro e he
          rcases hcomp with hc | hc
          · rw [hc] at he
            exact Or.inl he
          · rw [hc] at he
            rcases List.mem_append.mp he with h1 | h1
            · exact Or.inl h1
            · right
              have he2 : e = (g.gid, stF.processed) := by
                simpa using h1
              intro r hr
              rw [he2] at hr
              rcases hproc r hr with h2 | h2
              · exact absurd h2 (by simp)
              · exact h2
      · rw [hrun] at h
        exact absurd h (by simp)

/-- **C4** counterexample.  The spec says the asynchronous-message hook is
invoked "exactly once per occurrence".  A group carrying the same Notify
wire message twice (gid 5, messages Notify, Notify, ParseComplete) is
processed to completion (count 3), yet `hookLog` records a single hook
invocation: the second occurrence is dropped because its value is already
in `self._asyncs` (xact3.py lines 560-566 test membership by message
value, not by occurrence). -/
theorem claim_c4_counterexample :
    ((standard_put (standard_sent (Instruction.init [.Parse]))
        ⟨5, [(.Notify, .blank), (.Notify, .blank),
             (.ParseComplete, .blank)]⟩).map
      (fun r => (r.1.hookLog, r.2))) =
      some ([PMsg.obj .Notify .blank], 3) ∧
    (([(.Notify, .blank), (.Notify, .blank), (.ParseComplete, .blank)] :
        List WireMsg).filter (fun x => isAsync x.1)).length = 2 := by
  constructor
  · decide
  · decide

/-- **C4** (amended).  Across any successful `standard_put`, (a) the hook
log grows by a duplicate-free list of asynchronous message *values* drawn
from the group — each distinct async value at most once, never a
non-async message; (b) when the same group is re-presented (same group
identity) and every async value it carries is already recorded in
`_asyncs`, the hook is not invoked at all; (c) messages handed to
`completed` (and hence re-deliverable from there) are never asynchronous
ones, so the hook path and the completion path are disjoint. -/
theorem claim_c4_amended (i : Instruction) (g : MsgGroup) (i' : Instruction)
    (n : Nat) (h : standard_put i g = some (i', n)) :
    (∃ d : List WireMsg, d.Nodup ∧
       (∀ y ∈ d, y ∈ g.msgs ∧ isAsync y.1 = true) ∧
       i'.hookLog = i.hookLog ++ d.map (fun y => PMsg.obj y.1 y.2)) ∧
    (i.last.1 = some g.gid →
       (∀ y ∈ g.msgs, isAsync y.1 = true → y ∈ i.asyncsRec) →
       i'.hookLog = i.hookLog) ∧
    (∀ e ∈ i'.completed, e ∈ i.completed ∨
       ∀ r ∈ e.2, nonAsyncP r = true) := by
  obtain ⟨d, hnd, hmem, hhl, hcomp⟩ := standard_put_delta i g i' n h
  refine ⟨⟨d, hnd, fun y hy => (hmem y hy).2, hhl⟩, ?_, hcomp⟩
  intro hgid hall
  have hd : d = [] := by
    rcases d with _ | ⟨y, d2⟩
    · rfl
    · have hy := hmem y (by simp)
      have hnotin : y ∉ i.asyncsRec := by
        have := hy.1
        rw [if_pos hgid] at this
        exact this
      exact absurd (hall y hy.2.1 hy.2.2) hnotin
  rw [hd] at hhl
  simpa using hhl

theorem claim_c4_witness :
    ({ commands := [.Parse],
       completed := [(5, [PMsg.obj .ParseComplete .blank])],
       last := (some 5, (1, 0), (1, 0)), messages := .empty,
       state := .complete, fatal := none, error_message := none,
       last_ready := none, asyncsRec := [(.Notify, .blank)],
       hookLog := [PMsg.obj .Notify .blank],
       copySeqRest := none } : Instruction).hookLog =
    ({ commands := [.Parse],
       completed := [(5, [PMsg.obj .ParseComplete .blank])],
       last := (some 5, (0, 0), (1, 0)), messages := .empty,
       state := .complete, fatal := none, error_message := none,
       last_ready := none, asyncsRec := [(.Notify, .blank)],
       hookLog := [PMsg.obj .Notify .blank],
       copySeqRest := none } : Instruction).hookLog :=
  (claim_c4_amended
    { commands := [.Parse],
      completed := [(5, [PMsg.obj .ParseComplete .blank])],
      last := (some 5, (0, 0), (1, 0)), messages := .empty,
      state := .complete, fatal := none, error_message := none,
      last_ready := none, asyncsRec := [(.Notify, .blank)],
      hookLog := [PMsg.obj .Notify .blank], copySeqRest := none }
    ⟨5, [(.Notify, .blank), (.Notify, .blank), (.ParseComplete, .blank)]⟩
    { commands := [.Parse],
      completed := [(5, [PMsg.obj .ParseComplete .blank])],
      last := (some 5, (1, 0), (1, 0)), messages := .empty,
      state := .complete, fatal := none, error_message := none,
      last_ready := none, asyncsRec := [(.Notify, .blank)],
      hookLog := [PMsg.obj .Notify .blank], copySeqRest := none }
    3 (by decide)).2.1 (by decide) (by decide)
